import Mathlib

/-!
# Resolver registry (`src/core/lib/resolver/resolver_registry.cc`)

A shallow embedding of `grpc_core::ResolverRegistry` and of its `Builder`, followed by
theorems about the scheme-resolution algorithm `FindResolverFactory` and the four public
queries built on top of it.

Conventions of the embedding.

* A nullable pointer is an `Option` (`nullptr` is `none`).
* An out-parameter is an argument (the value the pointee holds before the call) together
  with a field of the result (the value it holds after the call).
* `GPR_ASSERT` aborts the process; a function that contains one returns `Except Fatal _`.
* `gpr_log` and the virtual calls into a `ResolverFactory` are the only effects of the
  registry; every function that can perform one returns the list of effects it performed,
  in program order, next to its value. A log line is the text `gpr_log` writes: an argument
  handed over as `c_str()` to a `%s` conversion ends at its first NUL byte.
* `URI::Parse` is a collaborator that is not part of this file: every function that calls it
  takes it as the argument `Parse`.
-/

namespace grpc_core

/-! ## Collaborator types -/

/-- Modelled from the spec: the class `URI` (declared in `uri_parser.h`, not part of the
sources at hand). Only `scheme()` is read by the registry; a default-constructed `URI` has
every component empty. -/
structure URI where
  scheme : String
  authority : String
  path : String
deriving DecidableEq, Repr

instance : Inhabited URI := ⟨⟨"", "", ""⟩⟩

/-- Modelled from the spec: `y_absl::Status`, reduced to the text `ToString()` yields (the
"human-readable description used verbatim in diagnostics"). -/
structure Status where
  ToString : String
deriving DecidableEq, Repr

/-- The OK status, whose `ToString()` is the literal `OK`. -/
def Status.OK : Status := ⟨"OK"⟩

/-- Modelled from the spec: `y_absl::StatusOr<T>`, either a value or a non-OK status. -/
inductive StatusOr (α : Type) where
  | value (v : α)
  | error (s : Status)
deriving DecidableEq, Repr

/-- `StatusOr::ok()`. -/
def StatusOr.ok {α : Type} : StatusOr α → Bool
  | .value _ => true
  | .error _ => false

/-- `StatusOr::status()`: the OK status when a value is held. -/
def StatusOr.status {α : Type} : StatusOr α → Status
  | .value _ => Status.OK
  | .error s => s

/-- Opaque `grpc_channel_args` object (the connection-argument blob). -/
structure grpc_channel_args where
  id : Nat
deriving DecidableEq, Repr

/-- Opaque `grpc_pollset_set` object (the event-notification-group handle). -/
structure grpc_pollset_set where
  id : Nat
deriving DecidableEq, Repr

/-- Opaque `WorkSerializer` object (the serialized-execution queue). -/
structure WorkSerializer where
  id : Nat
deriving DecidableEq, Repr

/-- Opaque `Resolver::ResultHandler` object (the result-delivery sink). -/
structure ResultHandler where
  id : Nat
deriving DecidableEq, Repr

/-- Opaque `Resolver` object, as handed out by a factory. -/
structure Resolver where
  id : Nat
deriving DecidableEq, Repr

/-- Modelled from the spec: `ResolverArgs` (declared in `resolver_factory.h`), the parsed
URI bundled with the four caller-supplied fields. A default-constructed value has an empty
URI and four null pointers. -/
structure ResolverArgs where
  uri : URI
  args : Option grpc_channel_args
  pollset_set : Option grpc_pollset_set
  work_serializer : Option WorkSerializer
  result_handler : Option ResultHandler
deriving DecidableEq, Repr

instance : Inhabited ResolverArgs := ⟨⟨default, none, none, none, none⟩⟩

/-- Modelled from the spec: the abstract class `ResolverFactory` (declared in
`resolver_factory.h`), given by its four virtual member functions. `scheme()` is a field,
so it is stable over the life of the factory. `CreateResolver` returns `none` for a null
`OrphanablePtr<Resolver>`. -/
structure ResolverFactory where
  scheme : String
  IsValidUri : URI → Bool
  GetDefaultAuthority : URI → String
  CreateResolver : ResolverArgs → Option Resolver

/-- The characters a `%s` conversion of `gpr_log` prints for `s.c_str()`: those in front of
the first NUL byte of `s`, all of `s` when it holds none. -/
def c_str (s : String) : String :=
  String.mk (s.data.takeWhile fun c => c != Char.ofNat 0)

/-- The text holds no NUL byte. -/
def NulFree (s : String) : Prop := Char.ofNat 0 ∉ s.data

/-- What aborts the process. -/
inductive Fatal where
  | GPR_ASSERT (condition : String)
deriving DecidableEq, Repr

/-- The effects a registry operation can perform: one `gpr_log(GPR_ERROR, ...)` line, or
one virtual call into a factory together with the argument it was given. -/
inductive Event where
  | gpr_log_error (message : String)
  | IsValidUri (factory : ResolverFactory) (uri : URI)
  | GetDefaultAuthority (factory : ResolverFactory) (uri : URI)
  | CreateResolver (factory : ResolverFactory) (args : ResolverArgs)

/-- Whether an effect is a call into a factory. -/
def Event.isFactoryCall : Event → Bool
  | .gpr_log_error _ => false
  | .IsValidUri _ _ => true
  | .GetDefaultAuthority _ _ => true
  | .CreateResolver _ _ => true

/-- A returned value next to the effects performed while computing it. -/
structure Outcome (α : Type) where
  value : α
  trace : List Event

/-! ## `std::map<TString, std::unique_ptr<ResolverFactory>, std::less<>>`

The registry uses `emplace`, `find`, `clear` and the move constructor only; it never
iterates. The map is kept as an association list in which `find` returns the first entry
whose key equals the argument and `emplace` refuses a key that `find` already finds. -/

/-- The scheme-to-factory mapping. -/
abbrev FactoryMap := List (String × ResolverFactory)

/-- The `std::map::find` member: the entry stored under exactly `key`, `none` for `end()`. -/
def map_find : FactoryMap → String → Option ResolverFactory
  | [], _ => none
  | (k, f) :: rest, key => if k = key then some f else map_find rest key

/-- The `std::map::emplace` member: inserts unless the key is present; the second
component is `p.second`, whether the insertion took place. -/
def map_emplace (m : FactoryMap) (key : String) (f : ResolverFactory) : FactoryMap × Bool :=
  match map_find m key with
  | some _ => (m, false)
  | none => (m ++ [(key, f)], true)

/-- The keys of the mapping, one per stored factory. -/
def map_keys (m : FactoryMap) : List String := m.map Prod.fst

/-! ## `ResolverRegistry::Builder` -/

/-- The `ResolverRegistry::State` record. -/
structure State where
  factories : FactoryMap
  default_prefix : String

/-- The class `ResolverRegistry::Builder`: one mutable `State`. -/
structure Builder where
  state_ : State

/-- The class `ResolverRegistry`: one `State`, never written after construction. -/
structure ResolverRegistry where
  state_ : State

namespace Builder

/-- `Builder::Reset()`. -/
def Reset (_b : Builder) : Builder :=
  { state_ := { factories := [], default_prefix := "dns:///" } }

/-- The constructor `Builder::Builder()`, whose body is `Reset()`. The members are
default-constructed (empty) before the body runs. -/
def ctor : Builder :=
  Reset { state_ := { factories := [], default_prefix := "" } }

/-- `Builder::SetDefaultPrefix(default_prefix)`. -/
def SetDefaultPrefix (b : Builder) ( default_prefix : String) : Builder :=
  { state_ := { b.state_ with default_prefix := default_prefix } }

/-- `Builder::RegisterResolverFactory(factory)`: `emplace` under `factory->scheme()`,
then `GPR_ASSERT(p.second)`. -/
def RegisterResolverFactory (b : Builder) (factory : ResolverFactory) :
    Except Fatal Builder :=
  let p := map_emplace b.state_.factories factory.scheme factory
  if p.2 then
    .ok { state_ := { b.state_ with factories := p.1 } }
  else
    .error (Fatal.GPR_ASSERT "p.second")

/-- `Builder::HasResolverFactory(scheme)`. -/
def HasResolverFactory (b : Builder) (scheme : String) : Bool :=
  (map_find b.state_.factories scheme).isSome

/-- `Builder::Build()`: the registry that takes over `state_`, and the builder as it is
left behind. Moving out of `state_` leaves a moved-from map and string, both empty. -/
def Build (b : Builder) : ResolverRegistry × Builder :=
  ({ state_ := b.state_ }, { state_ := { factories := [], default_prefix := "" } })

end Builder

/-- One call on a `Builder` during the construction phase. -/
inductive BuilderOp where
  | SetDefaultPrefix ( default_prefix : String)
  | RegisterResolverFactory (factory : ResolverFactory)
  | Reset

/-- Performs one call; a fatal assertion stops the process. -/
def BuilderOp.apply (b : Builder) : BuilderOp → Except Fatal Builder
  | .SetDefaultPrefix p => .ok (b.SetDefaultPrefix p)
  | .RegisterResolverFactory f => b.RegisterResolverFactory f
  | .Reset => .ok b.Reset

/-- Performs a sequence of calls from left to right, stopping at the first fatal one. -/
def runOps : List BuilderOp → Builder → Except Fatal Builder
  | [], b => .ok b
  | op :: rest, b =>
    match op.apply b with
    | .ok b1 => runOps rest b1
    | .error e => .error e

/-! ## `ResolverRegistry` -/

/-- `ResolverRegistry::LookupResolverFactory(scheme)`. -/
def LookupResolverFactory (reg : ResolverRegistry) (scheme : String) :
    Option ResolverFactory :=
  map_find reg.state_.factories scheme

/-- What `FindResolverFactory` leaves behind: the returned pointer, the two pointees after
the call, and the log lines written. -/
structure FindResult where
  factory : Option ResolverFactory
  uri : URI
  canonical_target : String
  trace : List Event

/-- The tail of `FindResolverFactory` once neither attempt matched: the parse-failure line
when either parse failed, the unknown-scheme line otherwise; `nullptr` is returned and
`*uri` keeps the value it had. The parse-failure text is built by `StrFormat` and handed to
`gpr_log` as `c_str()` for the format `%s`; the unknown-scheme line is formatted by
`gpr_log` itself from `TString(target).c_str()` and `canonical_target->c_str()`. -/
def FindResolverFactory.notFound (target : String) (tmp_uri tmp_uri2 : StatusOr URI)
    (uri0 : URI) (canonical_target : String) : FindResult :=
  if !tmp_uri.ok || !tmp_uri2.ok then
    { factory := none, uri := uri0, canonical_target := canonical_target,
      trace := [Event.gpr_log_error
        (c_str ("Error parsing URI(s). '" ++ target ++ "':" ++ tmp_uri.status.ToString
          ++ "; '" ++ canonical_target ++ "':" ++ tmp_uri2.status.ToString))] }
  else
    { factory := none, uri := uri0, canonical_target := canonical_target,
      trace := [Event.gpr_log_error
        ("Don't know how to resolve '" ++ c_str target ++ "' or '"
          ++ c_str canonical_target ++ "'.")] }

/-- The second half of `FindResolverFactory`, entered when the raw target did not match:
`*canonical_target` is overwritten with the prefixed string, which is then parsed and
looked up. -/
def FindResolverFactory.withPrefix (reg : ResolverRegistry) (Parse : String → StatusOr URI)
    (target : String) (tmp_uri : StatusOr URI) (uri0 : URI) : FindResult :=
  let canonical_target := reg.state_.default_prefix ++ target
  let tmp_uri2 := Parse canonical_target
  match tmp_uri2 with
  | .value u2 =>
    match LookupResolverFactory reg u2.scheme with
    | some factory =>
      { factory := some factory, uri := u2, canonical_target := canonical_target, trace := [] }
    | none => FindResolverFactory.notFound target tmp_uri tmp_uri2 uri0 canonical_target
  | .error _ => FindResolverFactory.notFound target tmp_uri tmp_uri2 uri0 canonical_target

/-- `ResolverRegistry::FindResolverFactory(target, uri, canonical_target)`. The argument
`uri` is the pointer (`none` for `nullptr`, else the current pointee), `canonical_target`
the current value of the pointee of the third argument. -/
def FindResolverFactory (reg : ResolverRegistry) (Parse : String → StatusOr URI)
    (target : String) (uri : Option URI) (canonical_target : String) :
    Except Fatal FindResult :=
  match uri with
  | none => .error (Fatal.GPR_ASSERT "uri != nullptr")
  | some uri0 =>
    let tmp_uri := Parse target
    match tmp_uri with
    | .value u =>
      match LookupResolverFactory reg u.scheme with
      | some factory =>
        .ok { factory := some factory, uri := u, canonical_target := canonical_target,
              trace := [] }
      | none => .ok (FindResolverFactory.withPrefix reg Parse target tmp_uri uri0)
    | .error _ => .ok (FindResolverFactory.withPrefix reg Parse target tmp_uri uri0)

/-- `ResolverRegistry::IsValidTarget(target)`. -/
def IsValidTarget (reg : ResolverRegistry) (Parse : String → StatusOr URI)
    (target : String) : Except Fatal (Outcome Bool) :=
  let canonical_target : String := ""
  let uri : URI := default
  match FindResolverFactory reg Parse target (some uri) canonical_target with
  | .error e => .error e
  | .ok r =>
    match r.factory with
    | none => .ok { value := false, trace := r.trace }
    | some factory =>
      .ok { value := factory.IsValidUri r.uri,
            trace := r.trace ++ [Event.IsValidUri factory r.uri] }

/-- `ResolverRegistry::CreateResolver(target, args, pollset_set, work_serializer,
result_handler)`. -/
def CreateResolver (reg : ResolverRegistry) (Parse : String → StatusOr URI)
    (target : String) (args : Option grpc_channel_args)
    (pollset_set : Option grpc_pollset_set) (work_serializer : Option WorkSerializer)
    (result_handler : Option ResultHandler) : Except Fatal (Outcome (Option Resolver)) :=
  let canonical_target : String := ""
  let resolver_args : ResolverArgs := default
  match FindResolverFactory reg Parse target (some resolver_args.uri) canonical_target with
  | .error e => .error e
  | .ok r =>
    let resolver_args := { resolver_args with uri := r.uri }
    match r.factory with
    | none => .ok { value := none, trace := r.trace }
    | some factory =>
      let resolver_args := { resolver_args with args := args }
      let resolver_args := { resolver_args with pollset_set := pollset_set }
      let resolver_args := { resolver_args with work_serializer := work_serializer }
      let resolver_args := { resolver_args with result_handler := result_handler }
      .ok { value := factory.CreateResolver resolver_args,
            trace := r.trace ++ [Event.CreateResolver factory resolver_args] }

/-- `ResolverRegistry::GetDefaultAuthority(target)`. -/
def GetDefaultAuthority (reg : ResolverRegistry) (Parse : String → StatusOr URI)
    (target : String) : Except Fatal (Outcome String) :=
  let canonical_target : String := ""
  let uri : URI := default
  match FindResolverFactory reg Parse target (some uri) canonical_target with
  | .error e => .error e
  | .ok r =>
    match r.factory with
    | none => .ok { value := "", trace := r.trace }
    | some factory =>
      .ok { value := factory.GetDefaultAuthority r.uri,
            trace := r.trace ++ [Event.GetDefaultAuthority factory r.uri] }

/-- `ResolverRegistry::AddDefaultPrefixIfNeeded(target)`. -/
def AddDefaultPrefixIfNeeded (reg : ResolverRegistry) (Parse : String → StatusOr URI)
    (target : String) : Except Fatal (Outcome String) :=
  let canonical_target : String := ""
  let uri : URI := default
  match FindResolverFactory reg Parse target (some uri) canonical_target with
  | .error e => .error e
  | .ok r =>
    .ok { value := if r.canonical_target.isEmpty then target else r.canonical_target,
          trace := r.trace }

/-! ## Sample collaborators

A small URI parser and two factories, used to evaluate the operations on concrete
targets. -/

namespace Sample

/-- The characters allowed in a scheme. -/
def isSchemeChar (c : Char) : Bool :=
  c.isAlphanum || c = '+' || c = '-' || c = '.'

/-- The characters allowed after the scheme: printable, non-blank ASCII. -/
def isBodyChar (c : Char) : Bool :=
  decide (32 < c.toNat) && decide (c.toNat < 127)

/-- Splits a text in front of the first character that satisfies `p`. -/
def splitBefore (p : Char → Bool) : List Char → List Char × List Char
  | [] => ([], [])
  | c :: cs =>
    if p c then ([], c :: cs)
    else (c :: (splitBefore p cs).1, (splitBefore p cs).2)

/-- The part of `URI::Parse` that follows the scheme: an optional `//authority`, then the
path. -/
def parseBody (scheme : String) : List Char → URI
  | '/' :: '/' :: rest =>
    { scheme := scheme,
      authority := String.mk (splitBefore (fun c => c = '/') rest).1,
      path := String.mk (splitBefore (fun c => c = '/') rest).2 }
  | rest => { scheme := scheme, authority := "", path := String.mk rest }

/-- A parser in the manner of `URI::Parse`: the scheme is what stands in front of the first
colon, it must be non-empty, start with a letter and hold scheme characters only; the rest
must be printable ASCII. -/
def Parse (uri_text : String) : StatusOr URI :=
  match splitBefore (fun c => c = ':') uri_text.toList with
  | (_, []) => .error ⟨"INVALID_ARGUMENT: Scheme not found."⟩
  | ([], _ :: _) => .error ⟨"INVALID_ARGUMENT: Scheme not found."⟩
  | (c :: cs, _ :: rest) =>
    if !(c :: cs).all isSchemeChar then
      .error ⟨"INVALID_ARGUMENT: Scheme contains invalid characters."⟩
    else if !c.isAlpha then
      .error ⟨"INVALID_ARGUMENT: Scheme must begin with an alpha character [A-Za-z]."⟩
    else if !rest.all isBodyChar then
      .error ⟨"INVALID_ARGUMENT: URI contains invalid characters."⟩
    else .value (parseBody (String.mk (c :: cs)) rest)

/-- A factory for the scheme `dns`: it wants a path of more than the leading slash. -/
def dnsFactory : ResolverFactory :=
  { scheme := "dns",
    IsValidUri := fun u => decide (1 < u.path.length),
    GetDefaultAuthority := fun u => u.path.drop 1,
    CreateResolver := fun a => if 1 < a.uri.path.length then some ⟨1⟩ else none }

/-- A factory for the scheme `unix`: it wants an empty authority. -/
def unixFactory : ResolverFactory :=
  { scheme := "unix",
    IsValidUri := fun u => u.authority.isEmpty,
    GetDefaultAuthority := fun _ => "localhost",
    CreateResolver := fun a => if a.uri.authority.isEmpty then some ⟨2⟩ else none }

/-- A second factory that announces the scheme `dns`. -/
def dnsFactory2 : ResolverFactory :=
  { scheme := "dns",
    IsValidUri := fun _ => true,
    GetDefaultAuthority := fun _ => "",
    CreateResolver := fun _ => some ⟨3⟩ }

/-- The builder after registering the `dns` and the `unix` factory on a new builder. -/
def builder : Builder :=
  match runOps [.RegisterResolverFactory dnsFactory, .RegisterResolverFactory unixFactory]
      Builder.ctor with
  | .ok b => b
  | .error _ => Builder.ctor

/-- The registry built from `builder`: prefix `dns:///`, schemes `dns` and `unix`. -/
def registry : ResolverRegistry := builder.Build.1

end Sample

/-! ## Predicates used in the statements -/

/-- The raw step does not match: the raw target does not parse, or it parses to a scheme
without a registered factory. -/
def RawMiss (reg : ResolverRegistry) (Parse : String → StatusOr URI) (target : String) :
    Prop :=
  ∀ u, Parse target = .value u → LookupResolverFactory reg u.scheme = none

/-- The prefixed step does not match. -/
def PrefixedMiss (reg : ResolverRegistry) (Parse : String → StatusOr URI)
    (target : String) : Prop :=
  ∀ u, Parse (reg.state_.default_prefix ++ target) = .value u →
    LookupResolverFactory reg u.scheme = none

/-- The keys of the mapping are pairwise different. -/
def UniqueSchemes (b : Builder) : Prop := (map_keys b.state_.factories).Nodup

/-- Every factory is stored under the scheme it announces. -/
def KeyedByScheme (m : FactoryMap) : Prop :=
  ∀ s f, map_find m s = some f → f.scheme = s

/-- The text `StrFormat` builds for the parse-failure line: both candidate strings, each
with the status of its parse. -/
def parseFailureText (target canonical_target : String) (tmp_uri tmp_uri2 : StatusOr URI) :
    String :=
  "Error parsing URI(s). '" ++ target ++ "':" ++ tmp_uri.status.ToString ++ "; '"
    ++ canonical_target ++ "':" ++ tmp_uri2.status.ToString

/-- The text of the unknown-scheme line when both candidate strings are printed whole. -/
def unknownSchemeText (target canonical_target : String) : String :=
  "Don't know how to resolve '" ++ target ++ "' or '" ++ canonical_target ++ "'."

/-- The parse-failure line of `FindResolverFactory` as `gpr_log` writes it: the text up to
its first NUL byte. -/
def parseFailureLine (target canonical_target : String) (tmp_uri tmp_uri2 : StatusOr URI) :
    Event :=
  Event.gpr_log_error (c_str (parseFailureText target canonical_target tmp_uri tmp_uri2))

/-- The unknown-scheme line of `FindResolverFactory` as `gpr_log` writes it: each of the
two candidate strings up to its first NUL byte. -/
def unknownSchemeLine (target canonical_target : String) : Event :=
  Event.gpr_log_error (unknownSchemeText (c_str target) (c_str canonical_target))

/-! ## Lemmas on the mapping and on the resolution algorithm -/


theorem FindResolverFactory_of_raw_match (reg : ResolverRegistry)
    (Parse : String → StatusOr URI) (target : String) (u : URI) (f : ResolverFactory)
    (uri0 : URI) (ct0 : String) (hparse : Parse target = .value u)
    (hreg : LookupResolverFactory reg u.scheme = some f) :
    FindResolverFactory reg Parse target (some uri0) ct0
      = .ok { factory := some f, uri := u, canonical_target := ct0, trace := [] } := by
  simp only [FindResolverFactory, hparse, hreg]

theorem FindResolverFactory_of_raw_miss (reg : ResolverRegistry)
    (Parse : String → StatusOr URI) (target : String) (uri0 : URI) (ct0 : String)
    (hraw : RawMiss reg Parse target) :
    FindResolverFactory reg Parse target (some uri0) ct0
      = .ok (FindResolverFactory.withPrefix reg Parse target (Parse target) uri0) := by
  cases hp : Parse target with
  | value u => simp only [FindResolverFactory, hp, hraw u hp]
  | error s => simp only [FindResolverFactory, hp]

theorem withPrefix_of_match (reg : ResolverRegistry) (Parse : String → StatusOr URI)
    (target : String) (t : StatusOr URI) (uri0 : URI) (u2 : URI) (f2 : ResolverFactory)
    (hparse : Parse (reg.state_.default_prefix ++ target) = .value u2)
    (hreg : LookupResolverFactory reg u2.scheme = some f2) :
    FindResolverFactory.withPrefix reg Parse target t uri0
      = { factory := some f2, uri := u2,
          canonical_target := reg.state_.default_prefix ++ target, trace := [] } := by
  simp only [FindResolverFactory.withPrefix, hparse, hreg]

theorem withPrefix_of_miss (reg : ResolverRegistry) (Parse : String → StatusOr URI)
    (target : String) (t : StatusOr URI) (uri0 : URI)
    (hpre : PrefixedMiss reg Parse target) :
    FindResolverFactory.withPrefix reg Parse target t uri0
      = FindResolverFactory.notFound target t
          (Parse (reg.state_.default_prefix ++ target)) uri0
          (reg.state_.default_prefix ++ target) := by
  cases hp : Parse (reg.state_.default_prefix ++ target) with
  | value u => simp only [FindResolverFactory.withPrefix, hp, hpre u hp]
  | error s => simp only [FindResolverFactory.withPrefix, hp]

theorem notFound_factory (target : String) (t t2 : StatusOr URI) (uri0 : URI)
    (ct : String) : (FindResolverFactory.notFound target t t2 uri0 ct).factory = none := by
  unfold FindResolverFactory.notFound
  split <;> rfl

theorem notFound_uri (target : String) (t t2 : StatusOr URI) (uri0 : URI)
    (ct : String) : (FindResolverFactory.notFound target t t2 uri0 ct).uri = uri0 := by
  unfold FindResolverFactory.notFound
  split <;> rfl

theorem notFound_trace (target : String) (t t2 : StatusOr URI) (uri0 : URI)
    (ct : String) :
    ∀ e ∈ (FindResolverFactory.notFound target t t2 uri0 ct).trace,
      e.isFactoryCall = false := by
  unfold FindResolverFactory.notFound
  split <;> simp [Event.isFactoryCall]

theorem notFound_canonical_target (target : String) (t t2 : StatusOr URI) (uri0 : URI)
    (ct : String) :
    (FindResolverFactory.notFound target t t2 uri0 ct).canonical_target = ct := by
  unfold FindResolverFactory.notFound
  split <;> rfl

theorem withPrefix_canonical_target (reg : ResolverRegistry)
    (Parse : String → StatusOr URI) (target : String) (t : StatusOr URI) (uri0 : URI) :
    (FindResolverFactory.withPrefix reg Parse target t uri0).canonical_target
      = reg.state_.default_prefix ++ target := by
  cases hp : Parse (reg.state_.default_prefix ++ target) with
  | value u =>
    cases hl : LookupResolverFactory reg u.scheme with
    | none =>
      simp only [FindResolverFactory.withPrefix, hp, hl, notFound_canonical_target]
    | some f => simp only [FindResolverFactory.withPrefix, hp, hl]
  | error s => simp only [FindResolverFactory.withPrefix, hp, notFound_canonical_target]

/-- Appending nothing in front or behind: the only way a concatenation is empty. -/
theorem append_isEmpty (p t : String) (h : (p ++ t).isEmpty = true) : t = p ++ t := by
  have h1 : p ++ t = "" := by simpa [String.isEmpty_iff] using h
  have h2 : (p ++ t).data = [] := by rw [h1]
  have h3 : p.data = [] ∧ t.data = [] := by simpa using h2
  have hp : p = "" := String.ext h3.1
  rw [hp]
  exact (String.empty_append t).symm

theorem notFound_eq (target : String) (t t2 : StatusOr URI) (uri0 : URI) (ct : String) :
    ∃ message, FindResolverFactory.notFound target t t2 uri0 ct
      = { factory := none, uri := uri0, canonical_target := ct,
          trace := [Event.gpr_log_error message] } := by
  unfold FindResolverFactory.notFound
  split
  · exact ⟨_, rfl⟩
  · exact ⟨_, rfl⟩

theorem FindResolverFactory_of_miss (reg : ResolverRegistry)
    (Parse : String → StatusOr URI) (target : String) (uri0 : URI) (ct0 : String)
    (hraw : RawMiss reg Parse target) (hpre : PrefixedMiss reg Parse target) :
    ∃ message, FindResolverFactory reg Parse target (some uri0) ct0
      = .ok { factory := none, uri := uri0,
              canonical_target := reg.state_.default_prefix ++ target,
              trace := [Event.gpr_log_error message] } := by
  obtain ⟨message, h⟩ := notFound_eq target (Parse target)
    (Parse (reg.state_.default_prefix ++ target)) uri0 (reg.state_.default_prefix ++ target)
  refine ⟨message, ?_⟩
  rw [FindResolverFactory_of_raw_miss reg Parse target uri0 ct0 hraw,
    withPrefix_of_miss reg Parse target _ uri0 hpre, h]

theorem rawMiss_of_no_factory (reg : ResolverRegistry) (Parse : String → StatusOr URI)
    (target : String) (uri0 : URI) (ct0 : String)
    (h : Except.map FindResult.factory (FindResolverFactory reg Parse target (some uri0) ct0)
      = .ok none) : RawMiss reg Parse target := by
  intro u hu
  cases hl : LookupResolverFactory reg u.scheme with
  | none => rfl
  | some f =>
    rw [FindResolverFactory_of_raw_match reg Parse target u f uri0 ct0 hu hl] at h
    simp [Except.map] at h

theorem AddDefaultPrefixIfNeeded_of_raw_miss (reg : ResolverRegistry)
    (Parse : String → StatusOr URI) (target : String) (hraw : RawMiss reg Parse target) :
    Except.map Outcome.value (AddDefaultPrefixIfNeeded reg Parse target)
      = .ok (reg.state_.default_prefix ++ target) := by
  simp only [AddDefaultPrefixIfNeeded,
    FindResolverFactory_of_raw_miss reg Parse target default "" hraw,
    withPrefix_canonical_target, Except.map]
  split
  · rename_i h
    rw [← append_isEmpty _ _ h]
  · rfl

/-! ### The mapping -/

theorem map_find_append (m : FactoryMap) (k : String) (f : ResolverFactory) (s : String) :
    map_find (m ++ [(k, f)]) s
      = match map_find m s with
        | some g => some g
        | none => if k = s then some f else none := by
  induction m with
  | nil => simp [map_find]
  | cons e rest ih =>
    obtain ⟨k1, f1⟩ := e
    by_cases h : k1 = s
    · simp [map_find, h]
    · simp only [List.cons_append, map_find, h, if_false]
      exact ih

theorem map_find_eq_none_iff (m : FactoryMap) (s : String) :
    map_find m s = none ↔ s ∉ map_keys m := by
  induction m with
  | nil => simp [map_find, map_keys]
  | cons e rest ih =>
    obtain ⟨k1, f1⟩ := e
    by_cases h : k1 = s
    · simp [map_find, map_keys, h]
    · have h1 : ¬ s = k1 := fun h2 => h h2.symm
      simp only [map_find, h, if_false, ih, map_keys, List.map_cons, List.mem_cons, h1,
        false_or]

theorem map_find_mem (m : FactoryMap) (s : String) (f : ResolverFactory)
    (h : map_find m s = some f) : (s, f) ∈ m := by
  induction m with
  | nil => simp [map_find] at h
  | cons e rest ih =>
    obtain ⟨k1, f1⟩ := e
    by_cases hk : k1 = s
    · simp only [map_find, hk, if_true, Option.some.injEq] at h
      simp [hk, h]
    · simp only [map_find, hk, if_false] at h
      exact List.mem_cons_of_mem _ (ih h)

theorem map_keys_append (m : FactoryMap) (k : String) (f : ResolverFactory) :
    map_keys (m ++ [(k, f)]) = map_keys m ++ [k] := by
  simp [map_keys]

/-! ### The builder -/

theorem RegisterResolverFactory_of_absent (b : Builder) (factory : ResolverFactory)
    (h : map_find b.state_.factories factory.scheme = none) :
    b.RegisterResolverFactory factory
      = .ok { state_ := { factories := b.state_.factories ++ [(factory.scheme, factory)],
                          default_prefix := b.state_.default_prefix } } := by
  simp [Builder.RegisterResolverFactory, map_emplace, h]

theorem RegisterResolverFactory_of_present (b : Builder) (factory g : ResolverFactory)
    (h : map_find b.state_.factories factory.scheme = some g) :
    b.RegisterResolverFactory factory = .error (Fatal.GPR_ASSERT "p.second") := by
  simp [Builder.RegisterResolverFactory, map_emplace, h]

theorem RegisterResolverFactory_ok (b b1 : Builder) (factory : ResolverFactory)
    (h : b.RegisterResolverFactory factory = .ok b1) :
    map_find b.state_.factories factory.scheme = none ∧
    b1 = { state_ := { factories := b.state_.factories ++ [(factory.scheme, factory)],
                       default_prefix := b.state_.default_prefix } } := by
  cases hf : map_find b.state_.factories factory.scheme with
  | some g =>
    rw [RegisterResolverFactory_of_present b factory g hf] at h
    cases h
  | none =>
    rw [RegisterResolverFactory_of_absent b factory hf] at h
    exact ⟨rfl, (Except.ok.inj h).symm⟩

theorem UniqueSchemes_apply (op : BuilderOp) (b b1 : Builder) (hb : UniqueSchemes b)
    (h : op.apply b = .ok b1) : UniqueSchemes b1 := by
  cases op with
  | SetDefaultPrefix p =>
    cases h
    exact hb
  | Reset =>
    cases h
    exact List.nodup_nil
  | RegisterResolverFactory f =>
    obtain ⟨hnone, rfl⟩ := RegisterResolverFactory_ok b b1 f h
    unfold UniqueSchemes
    rw [map_keys_append]
    exact List.Nodup.append hb (List.nodup_singleton _)
      (by simpa using (map_find_eq_none_iff _ _).1 hnone)

theorem UniqueSchemes_runOps (ops : List BuilderOp) (b b1 : Builder)
    (hb : UniqueSchemes b) (h : runOps ops b = .ok b1) : UniqueSchemes b1 := by
  induction ops generalizing b with
  | nil =>
    cases h
    exact hb
  | cons op rest ih =>
    cases hop : op.apply b with
    | error e => simp [runOps, hop] at h
    | ok b2 =>
      simp only [runOps, hop] at h
      exact ih b2 (UniqueSchemes_apply op b b2 hb hop) h

theorem KeyedByScheme_apply (op : BuilderOp) (b b1 : Builder)
    (hb : KeyedByScheme b.state_.factories) (h : op.apply b = .ok b1) :
    KeyedByScheme b1.state_.factories := by
  cases op with
  | SetDefaultPrefix p =>
    cases h
    exact hb
  | Reset =>
    cases h
    intro s f hf
    simp [Builder.Reset, map_find] at hf
  | RegisterResolverFactory g =>
    obtain ⟨_, rfl⟩ := RegisterResolverFactory_ok b b1 g h
    intro s f hf
    rw [map_find_append] at hf
    cases hm : map_find b.state_.factories s with
    | some f1 =>
      rw [hm] at hf
      have hf1 : f1 = f := Option.some.inj hf
      rw [← hf1]
      exact hb s f1 hm
    | none =>
      rw [hm] at hf
      by_cases hk : g.scheme = s
      · simp only [hk, if_true, Option.some.injEq] at hf
        rw [← hf]; exact hk
      · simp [hk] at hf

theorem KeyedByScheme_runOps (ops : List BuilderOp) (b b1 : Builder)
    (hb : KeyedByScheme b.state_.factories) (h : runOps ops b = .ok b1) :
    KeyedByScheme b1.state_.factories := by
  induction ops generalizing b with
  | nil =>
    cases h
    exact hb
  | cons op rest ih =>
    cases hop : op.apply b with
    | error e => simp [runOps, hop] at h
    | ok b2 =>
      simp only [runOps, hop] at h
      exact ih b2 (KeyedByScheme_apply op b b2 hb hop) h

theorem KeyedByScheme_ctor : KeyedByScheme Builder.ctor.state_.factories := by
  intro s f hf
  simp [Builder.ctor, Builder.Reset, map_find] at hf

/-- A match of `FindResolverFactory` does not depend on what the two pointees held: it is
the factory registered for the scheme of the URI written out, and nothing is logged. -/
theorem FindResolverFactory_found (reg : ResolverRegistry) (Parse : String → StatusOr URI)
    (target : String) (uri0 : URI) (ct0 : String) (r : FindResult) (f : ResolverFactory)
    (hfind : FindResolverFactory reg Parse target (some uri0) ct0 = .ok r)
    (hf : r.factory = some f) :
    LookupResolverFactory reg r.uri.scheme = some f ∧
    ∀ uri1 ct1, ∃ ct, FindResolverFactory reg Parse target (some uri1) ct1
      = .ok { factory := some f, uri := r.uri, canonical_target := ct, trace := [] } := by
  cases hp : Parse target with
  | value u =>
    cases hl : LookupResolverFactory reg u.scheme with
    | some g =>
      rw [FindResolverFactory_of_raw_match reg Parse target u g uri0 ct0 hp hl] at hfind
      have hr := Except.ok.inj hfind
      subst hr
      have hg : g = f := Option.some.inj hf
      subst hg
      exact ⟨hl, fun uri1 ct1 =>
        ⟨ct1, FindResolverFactory_of_raw_match reg Parse target u g uri1 ct1 hp hl⟩⟩
    | none =>
      have hraw : RawMiss reg Parse target := fun v hv => by
        rw [hp] at hv; cases hv; exact hl
      rw [FindResolverFactory_of_raw_miss reg Parse target uri0 ct0 hraw] at hfind
      cases hp2 : Parse (reg.state_.default_prefix ++ target) with
      | value u2 =>
        cases hl2 : LookupResolverFactory reg u2.scheme with
        | some g =>
          rw [withPrefix_of_match reg Parse target _ uri0 u2 g hp2 hl2] at hfind
          have hr := Except.ok.inj hfind
          subst hr
          have hg : g = f := Option.some.inj hf
          subst hg
          refine ⟨hl2, fun uri1 ct1 => ⟨reg.state_.default_prefix ++ target, ?_⟩⟩
          rw [FindResolverFactory_of_raw_miss reg Parse target uri1 ct1 hraw,
            withPrefix_of_match reg Parse target _ uri1 u2 g hp2 hl2]
        | none =>
          have hpre : PrefixedMiss reg Parse target := fun v hv => by
            rw [hp2] at hv; cases hv; exact hl2
          rw [withPrefix_of_miss reg Parse target _ uri0 hpre] at hfind
          cases hfind
          rw [notFound_factory] at hf
          cases hf
      | error s2 =>
        have hpre : PrefixedMiss reg Parse target := fun v hv => by
          rw [hp2] at hv; cases hv
        rw [withPrefix_of_miss reg Parse target _ uri0 hpre] at hfind
        cases hfind
        rw [notFound_factory] at hf
        cases hf
  | error s =>
    have hraw : RawMiss reg Parse target := fun v hv => by
      rw [hp] at hv; cases hv
    rw [FindResolverFactory_of_raw_miss reg Parse target uri0 ct0 hraw] at hfind
    cases hp2 : Parse (reg.state_.default_prefix ++ target) with
    | value u2 =>
      cases hl2 : LookupResolverFactory reg u2.scheme with
      | some g =>
        rw [withPrefix_of_match reg Parse target _ uri0 u2 g hp2 hl2] at hfind
        have hr := Except.ok.inj hfind
        subst hr
        have hg : g = f := Option.some.inj hf
        subst hg
        refine ⟨hl2, fun uri1 ct1 => ⟨reg.state_.default_prefix ++ target, ?_⟩⟩
        rw [FindResolverFactory_of_raw_miss reg Parse target uri1 ct1 hraw,
          withPrefix_of_match reg Parse target _ uri1 u2 g hp2 hl2]
      | none =>
        have hpre : PrefixedMiss reg Parse target := fun v hv => by
          rw [hp2] at hv; cases hv; exact hl2
        rw [withPrefix_of_miss reg Parse target _ uri0 hpre] at hfind
        cases hfind
        rw [notFound_factory] at hf
        cases hf
    | error s2 =>
      have hpre : PrefixedMiss reg Parse target := fun v hv => by
        rw [hp2] at hv; cases hv
      rw [withPrefix_of_miss reg Parse target _ uri0 hpre] at hfind
      cases hfind
      rw [notFound_factory] at hf
      cases hf

/-! ## The resolution algorithm -/

/-- C1: when the raw target parses to `u` and a factory `f` is registered for `u.scheme`,
`FindResolverFactory` returns `f`, writes `u` to the output URI, leaves the canonical-target
output at the value passed in and logs nothing. Nothing is assumed about the parse of the
prefixed string, which therefore cannot change the result. -/
theorem FindResolverFactory_raw_match_wins (reg : ResolverRegistry)
    (Parse : String → StatusOr URI) (target : String) (u : URI) (f : ResolverFactory)
    (uri0 : URI) (ct0 : String) (hparse : Parse target = .value u)
    (hreg : LookupResolverFactory reg u.scheme = some f) :
    FindResolverFactory reg Parse target (some uri0) ct0
      = .ok { factory := some f, uri := u, canonical_target := ct0, trace := [] } :=
  FindResolverFactory_of_raw_match reg Parse target u f uri0 ct0 hparse hreg

/-- Instance of C1: `unix:/tmp/s.sock` matches the `unix` factory at the raw step although
the prefixed string parses to the registered scheme `dns`. -/
theorem FindResolverFactory_raw_match_wins_witness :
    Sample.Parse "unix:/tmp/s.sock" = .value ⟨"unix", "", "/tmp/s.sock"⟩ ∧
    LookupResolverFactory Sample.registry "unix" = some Sample.unixFactory ∧
    Sample.Parse (Sample.registry.state_.default_prefix ++ "unix:/tmp/s.sock")
      = .value ⟨"dns", "", "/unix:/tmp/s.sock"⟩ ∧
    LookupResolverFactory Sample.registry "dns" = some Sample.dnsFactory ∧
    FindResolverFactory Sample.registry Sample.Parse "unix:/tmp/s.sock" (some default) ""
      = .ok { factory := some Sample.unixFactory, uri := ⟨"unix", "", "/tmp/s.sock"⟩,
              canonical_target := "", trace := [] } :=
  ⟨by decide, rfl, by decide, rfl,
    FindResolverFactory_raw_match_wins Sample.registry Sample.Parse "unix:/tmp/s.sock"
      ⟨"unix", "", "/tmp/s.sock"⟩ Sample.unixFactory default "" (by decide) rfl⟩

/-- C2: when the raw step does not match and the concatenation of the default prefix and
the target parses to `u2` with a factory `f2` registered for `u2.scheme`,
`FindResolverFactory` returns `f2` and writes `u2`, the parse of the prefixed string, to
the output URI; the canonical-target output holds the prefixed string. -/
theorem FindResolverFactory_fallback_to_prefix (reg : ResolverRegistry)
    (Parse : String → StatusOr URI) (target : String) (u2 : URI) (f2 : ResolverFactory)
    (uri0 : URI) (ct0 : String)
    (hraw : ∀ u, Parse target = .value u → LookupResolverFactory reg u.scheme = none)
    (hparse : Parse (reg.state_.default_prefix ++ target) = .value u2)
    (hreg : LookupResolverFactory reg u2.scheme = some f2) :
    FindResolverFactory reg Parse target (some uri0) ct0
      = .ok { factory := some f2, uri := u2,
              canonical_target := reg.state_.default_prefix ++ target, trace := [] } := by
  rw [FindResolverFactory_of_raw_miss reg Parse target uri0 ct0 hraw,
    withPrefix_of_match reg Parse target _ uri0 u2 f2 hparse hreg]

/-- Instance of C2: `foo.com:443` parses to the unregistered scheme `foo.com`, and the
prefixed string resolves against the `dns` factory. -/
theorem FindResolverFactory_fallback_to_prefix_witness :
    Sample.Parse "foo.com:443" = .value ⟨"foo.com", "", "443"⟩ ∧
    LookupResolverFactory Sample.registry "foo.com" = none ∧
    FindResolverFactory Sample.registry Sample.Parse "foo.com:443" (some default) ""
      = .ok { factory := some Sample.dnsFactory, uri := ⟨"dns", "", "/foo.com:443"⟩,
              canonical_target := "dns:///foo.com:443", trace := [] } :=
  ⟨by decide, rfl,
    FindResolverFactory_fallback_to_prefix Sample.registry Sample.Parse "foo.com:443"
      ⟨"dns", "", "/foo.com:443"⟩ Sample.dnsFactory default ""
      (fun u hu => by
        have h : u = ⟨"foo.com", "", "443"⟩ :=
          StatusOr.value.inj (hu.symm.trans (by decide))
        rw [h]; rfl)
      (by decide) rfl⟩

/-- C3: when neither the raw target nor the prefixed target parses to a URI whose scheme
has a registered factory, `FindResolverFactory` returns no factory and leaves the output
URI alone, `IsValidTarget` returns false, `GetDefaultAuthority` returns the empty string
and `CreateResolver` returns null; each of them returns (no assertion fires) and none of
them calls into a factory. -/
theorem queries_degrade_to_not_found (reg : ResolverRegistry)
    (Parse : String → StatusOr URI) (target : String)
    (hraw : ∀ u, Parse target = .value u → LookupResolverFactory reg u.scheme = none)
    (hpre : ∀ u, Parse (reg.state_.default_prefix ++ target) = .value u →
      LookupResolverFactory reg u.scheme = none) :
    (∀ uri0 ct0, ∃ r, FindResolverFactory reg Parse target (some uri0) ct0 = .ok r ∧
      r.factory = none ∧ r.uri = uri0 ∧ ∀ e ∈ r.trace, e.isFactoryCall = false) ∧
    (∃ tr, IsValidTarget reg Parse target = .ok ⟨false, tr⟩ ∧
      ∀ e ∈ tr, e.isFactoryCall = false) ∧
    (∃ tr, GetDefaultAuthority reg Parse target = .ok ⟨"", tr⟩ ∧
      ∀ e ∈ tr, e.isFactoryCall = false) ∧
    (∀ args pollset_set work_serializer result_handler, ∃ tr,
      CreateResolver reg Parse target args pollset_set work_serializer result_handler
        = .ok ⟨none, tr⟩ ∧ ∀ e ∈ tr, e.isFactoryCall = false) := by
  refine ⟨?_, ?_, ?_, ?_⟩
  · intro uri0 ct0
    obtain ⟨message, h⟩ := FindResolverFactory_of_miss reg Parse target uri0 ct0 hraw hpre
    exact ⟨_, h, rfl, rfl, by simp [Event.isFactoryCall]⟩
  · obtain ⟨message, h⟩ := FindResolverFactory_of_miss reg Parse target default "" hraw hpre
    exact ⟨[Event.gpr_log_error message], by simp only [IsValidTarget, h],
      by simp [Event.isFactoryCall]⟩
  · obtain ⟨message, h⟩ := FindResolverFactory_of_miss reg Parse target default "" hraw hpre
    exact ⟨[Event.gpr_log_error message], by simp only [GetDefaultAuthority, h],
      by simp [Event.isFactoryCall]⟩
  · intro args pollset_set work_serializer result_handler
    obtain ⟨message, h⟩ := FindResolverFactory_of_miss reg Parse target
      (default : ResolverArgs).uri "" hraw hpre
    exact ⟨[Event.gpr_log_error message], by simp only [CreateResolver, h],
      by simp [Event.isFactoryCall]⟩

/-- Instance of C3: for the two control characters both parse attempts fail. -/
theorem queries_degrade_to_not_found_witness :
    (Sample.Parse "\x00\x01").ok = false ∧
    (Sample.Parse (Sample.registry.state_.default_prefix ++ "\x00\x01")).ok = false ∧
    (∃ tr, IsValidTarget Sample.registry Sample.Parse "\x00\x01" = .ok ⟨false, tr⟩ ∧
      ∀ e ∈ tr, e.isFactoryCall = false) :=
  ⟨by decide, by decide,
    (queries_degrade_to_not_found Sample.registry Sample.Parse "\x00\x01"
      (fun u hu => by
        have h : (Sample.Parse "\x00\x01").ok = false := by decide
        rw [hu] at h; exact absurd h (by simp [StatusOr.ok]))
      (fun u hu => by
        have h : (Sample.Parse (Sample.registry.state_.default_prefix ++ "\x00\x01")).ok
            = false := by decide
        rw [hu] at h; exact absurd h (by simp [StatusOr.ok]))).2.1⟩

/-- C4: for a target whose raw form does not match, `AddDefaultPrefixIfNeeded` returns the
default prefix followed by the target, whatever the prefixed string then parses to; in a
registry that carries the prefix of a newly constructed builder this is `dns:///` followed
by the target. -/
theorem AddDefaultPrefixIfNeeded_prefixes_on_raw_miss (reg : ResolverRegistry)
    (Parse : String → StatusOr URI) (target : String)
    (hraw : ∀ u, Parse target = .value u → LookupResolverFactory reg u.scheme = none) :
    Except.map Outcome.value (AddDefaultPrefixIfNeeded reg Parse target)
      = .ok (reg.state_.default_prefix ++ target) ∧
    (reg.state_.default_prefix = Builder.ctor.state_.default_prefix →
      Except.map Outcome.value (AddDefaultPrefixIfNeeded reg Parse target)
        = .ok ("dns:///" ++ target)) := by
  have h := AddDefaultPrefixIfNeeded_of_raw_miss reg Parse target hraw
  refine ⟨h, fun hp => ?_⟩
  rw [h, hp]
  rfl

/-- Instance of C4: the bare host `foo` has no scheme separator and is prefixed. -/
theorem AddDefaultPrefixIfNeeded_prefixes_on_raw_miss_witness :
    (Sample.Parse "foo").ok = false ∧
    Except.map Outcome.value (AddDefaultPrefixIfNeeded Sample.registry Sample.Parse "foo")
      = .ok "dns:///foo" :=
  ⟨by decide,
    (AddDefaultPrefixIfNeeded_prefixes_on_raw_miss Sample.registry Sample.Parse "foo"
      (fun u hu => by
        have h : (Sample.Parse "foo").ok = false := by decide
        rw [hu] at h; exact absurd h (by simp [StatusOr.ok]))).2 rfl⟩

/-- C5: for a target whose raw parse succeeds with a registered scheme,
`AddDefaultPrefixIfNeeded` returns the target itself and logs nothing; feeding the result
to it again therefore yields the same string a second time. -/
theorem AddDefaultPrefixIfNeeded_unchanged_on_raw_match (reg : ResolverRegistry)
    (Parse : String → StatusOr URI) (target : String) (u : URI) (f : ResolverFactory)
    (hparse : Parse target = .value u)
    (hreg : LookupResolverFactory reg u.scheme = some f) :
    AddDefaultPrefixIfNeeded reg Parse target = .ok ⟨target, []⟩ ∧
    (AddDefaultPrefixIfNeeded reg Parse target >>= fun o =>
      AddDefaultPrefixIfNeeded reg Parse o.value) = .ok ⟨target, []⟩ := by
  have h : AddDefaultPrefixIfNeeded reg Parse target = .ok ⟨target, []⟩ := by
    simp only [AddDefaultPrefixIfNeeded,
      FindResolverFactory_of_raw_match reg Parse target u f default "" hparse hreg]
    rfl
  refine ⟨h, ?_⟩
  rw [h]
  exact h

/-- Instance of C5: `unix:/tmp/s.sock` is returned as it is. -/
theorem AddDefaultPrefixIfNeeded_unchanged_on_raw_match_witness :
    Sample.Parse "unix:/tmp/s.sock" = .value ⟨"unix", "", "/tmp/s.sock"⟩ ∧
    LookupResolverFactory Sample.registry "unix" = some Sample.unixFactory ∧
    AddDefaultPrefixIfNeeded Sample.registry Sample.Parse "unix:/tmp/s.sock"
      = .ok ⟨"unix:/tmp/s.sock", []⟩ :=
  ⟨by decide, rfl,
    (AddDefaultPrefixIfNeeded_unchanged_on_raw_match Sample.registry Sample.Parse
      "unix:/tmp/s.sock" ⟨"unix", "", "/tmp/s.sock"⟩ Sample.unixFactory (by decide) rfl).1⟩

/-- C6, as stated, fails: for the two control characters `FindResolverFactory` returns no
factory, yet `AddDefaultPrefixIfNeeded` returns the prefixed string, not the target. -/
theorem AddDefaultPrefixIfNeeded_on_failure_counterexample :
    Except.map FindResult.factory
      (FindResolverFactory Sample.registry Sample.Parse "\x00\x01" (some default) "")
      = .ok none ∧
    Except.map Outcome.value
      (AddDefaultPrefixIfNeeded Sample.registry Sample.Parse "\x00\x01")
      = .ok "dns:///\x00\x01" ∧
    "dns:///\x00\x01" ≠ "\x00\x01" :=
  ⟨rfl, rfl, by decide⟩

/-- C6, amended: when `FindResolverFactory` returns no factory, `AddDefaultPrefixIfNeeded`
returns the default prefix followed by the target. -/
theorem AddDefaultPrefixIfNeeded_on_failure (reg : ResolverRegistry)
    (Parse : String → StatusOr URI) (target : String)
    (hnone : Except.map FindResult.factory
      (FindResolverFactory reg Parse target (some default) "") = .ok none) :
    Except.map Outcome.value (AddDefaultPrefixIfNeeded reg Parse target)
      = .ok (reg.state_.default_prefix ++ target) :=
  AddDefaultPrefixIfNeeded_of_raw_miss reg Parse target
    (rawMiss_of_no_factory reg Parse target default "" hnone)

/-- Instance of the amended C6 on the unknown scheme of `ftp://x` in a registry that knows
`unix` only. -/
theorem AddDefaultPrefixIfNeeded_on_failure_witness :
    Except.map FindResult.factory
      (FindResolverFactory ⟨⟨[("unix", Sample.unixFactory)], "dns:///"⟩⟩ Sample.Parse
        "ftp://x" (some default) "") = .ok none ∧
    Except.map Outcome.value
      (AddDefaultPrefixIfNeeded ⟨⟨[("unix", Sample.unixFactory)], "dns:///"⟩⟩ Sample.Parse
        "ftp://x") = .ok "dns:///ftp://x" :=
  ⟨rfl, AddDefaultPrefixIfNeeded_on_failure ⟨⟨[("unix", Sample.unixFactory)], "dns:///"⟩⟩
    Sample.Parse "ftp://x" rfl⟩

/-! ## Registration, delegation and dispatch -/

/-- C7: `RegisterResolverFactory` hits its `GPR_ASSERT` exactly when a factory is already
registered under `factory.scheme()`. When it succeeds, `HasResolverFactory` holds for that
scheme, the factory is the one stored under it, every other scheme and the default prefix
are as before; and from a builder whose schemes are pairwise different (a newly
constructed one is such) no sequence of calls that runs to its end reaches a builder with
one scheme stored twice. -/
theorem RegisterResolverFactory_fatal_iff_duplicate (b : Builder)
    (factory : ResolverFactory) :
    ((∃ e, b.RegisterResolverFactory factory = .error e) ↔
      b.HasResolverFactory factory.scheme = true) ∧
    (∀ b1, b.RegisterResolverFactory factory = .ok b1 →
      b1.HasResolverFactory factory.scheme = true ∧
      map_find b1.state_.factories factory.scheme = some factory ∧
      (∀ s, s ≠ factory.scheme →
        map_find b1.state_.factories s = map_find b.state_.factories s) ∧
      b1.state_.default_prefix = b.state_.default_prefix) ∧
    ((map_keys b.state_.factories).Nodup → ∀ ops b1, runOps ops b = .ok b1 →
      (map_keys b1.state_.factories).Nodup) ∧
    (map_keys Builder.ctor.state_.factories).Nodup := by
  refine ⟨?_, ?_, ?_, List.nodup_nil⟩
  · cases hf : map_find b.state_.factories factory.scheme with
    | some g =>
      simp [RegisterResolverFactory_of_present b factory g hf, Builder.HasResolverFactory,
        hf]
    | none =>
      simp [RegisterResolverFactory_of_absent b factory hf, Builder.HasResolverFactory, hf]
  · intro b1 h
    obtain ⟨hnone, rfl⟩ := RegisterResolverFactory_ok b b1 factory h
    have hself : map_find (b.state_.factories ++ [(factory.scheme, factory)])
        factory.scheme = some factory := by
      rw [map_find_append, hnone]
      simp
    refine ⟨by simp [Builder.HasResolverFactory, hself], hself, ?_, rfl⟩
    intro s hs
    have hs1 : ¬ factory.scheme = s := fun h1 => hs h1.symm
    show map_find (b.state_.factories ++ [(factory.scheme, factory)]) s = _
    rw [map_find_append]
    cases map_find b.state_.factories s with
    | some g => rfl
    | none => simp [hs1]
  · intro hb ops b1 h
    exact UniqueSchemes_runOps ops b b1 hb h

/-- Instance of C7: on the builder that holds `dns` and `unix`, a second factory for `dns`
is fatal, while on a new builder the `dns` factory is accepted. -/
theorem RegisterResolverFactory_fatal_iff_duplicate_witness :
    Sample.builder.HasResolverFactory Sample.dnsFactory2.scheme = true ∧
    (∃ e, Sample.builder.RegisterResolverFactory Sample.dnsFactory2 = .error e) ∧
    Builder.ctor.HasResolverFactory Sample.dnsFactory.scheme = false ∧
    (∃ b1, Builder.ctor.RegisterResolverFactory Sample.dnsFactory = .ok b1 ∧
      b1.HasResolverFactory "dns" = true ∧ b1.HasResolverFactory "unix" = false) :=
  ⟨by decide,
    (RegisterResolverFactory_fatal_iff_duplicate Sample.builder Sample.dnsFactory2).1.2
      (by decide),
    by decide, ⟨_, rfl, by decide, by decide⟩⟩

/-- C8: when `FindResolverFactory` matches the factory `f` with the URI `r.uri`,
`IsValidTarget` performs the single call `f.IsValidUri(r.uri)` and returns its result,
`GetDefaultAuthority` performs the single call `f.GetDefaultAuthority(r.uri)` and returns
its result, and `CreateResolver` performs the single call `f.CreateResolver(a)` and returns
its result, where `a` holds `r.uri` and the four arguments of the caller as they came. -/
theorem queries_delegate_to_matched_factory (reg : ResolverRegistry)
    (Parse : String → StatusOr URI) (target : String) (uri0 : URI) (ct0 : String)
    (r : FindResult) (f : ResolverFactory)
    (hfind : FindResolverFactory reg Parse target (some uri0) ct0 = .ok r)
    (hf : r.factory = some f) :
    IsValidTarget reg Parse target
      = .ok ⟨f.IsValidUri r.uri, [Event.IsValidUri f r.uri]⟩ ∧
    GetDefaultAuthority reg Parse target
      = .ok ⟨f.GetDefaultAuthority r.uri, [Event.GetDefaultAuthority f r.uri]⟩ ∧
    ∀ args pollset_set work_serializer result_handler,
      CreateResolver reg Parse target args pollset_set work_serializer result_handler
        = .ok ⟨f.CreateResolver ⟨r.uri, args, pollset_set, work_serializer, result_handler⟩,
            [Event.CreateResolver f
              ⟨r.uri, args, pollset_set, work_serializer, result_handler⟩]⟩ := by
  have hall := (FindResolverFactory_found reg Parse target uri0 ct0 r f hfind hf).2
  refine ⟨?_, ?_, ?_⟩
  · obtain ⟨ct, h⟩ := hall default ""
    simp only [IsValidTarget, h]
    rfl
  · obtain ⟨ct, h⟩ := hall default ""
    simp only [GetDefaultAuthority, h]
    rfl
  · intro args pollset_set work_serializer result_handler
    obtain ⟨ct, h⟩ := hall (default : ResolverArgs).uri ""
    simp only [CreateResolver, h]
    rfl

/-- Instance of C8: `dns:///` matches the `dns` factory, which finds the URI not valid and
creates no resolver; both answers are passed on. -/
theorem queries_delegate_to_matched_factory_witness :
    FindResolverFactory Sample.registry Sample.Parse "dns:///" (some default) ""
      = .ok ⟨some Sample.dnsFactory, ⟨"dns", "", "/"⟩, "", []⟩ ∧
    Sample.dnsFactory.IsValidUri ⟨"dns", "", "/"⟩ = false ∧
    IsValidTarget Sample.registry Sample.Parse "dns:///"
      = .ok ⟨false, [Event.IsValidUri Sample.dnsFactory ⟨"dns", "", "/"⟩]⟩ ∧
    CreateResolver Sample.registry Sample.Parse "dns:///" (some ⟨7⟩) none (some ⟨8⟩) none
      = .ok ⟨none, [Event.CreateResolver Sample.dnsFactory
          ⟨⟨"dns", "", "/"⟩, some ⟨7⟩, none, some ⟨8⟩, none⟩]⟩ :=
  have h := queries_delegate_to_matched_factory Sample.registry Sample.Parse "dns:///"
    default "" ⟨some Sample.dnsFactory, ⟨"dns", "", "/"⟩, "", []⟩ Sample.dnsFactory rfl rfl
  ⟨rfl, by decide, h.1, h.2.2 (some ⟨7⟩) none (some ⟨8⟩) none⟩

/-- C9: in a registry built from a new builder by any sequence of `SetDefaultPrefix`,
`RegisterResolverFactory` and `Reset` calls, a factory returned by `FindResolverFactory`
announces the scheme of the URI returned with it; and when the raw target parses to `u`
whose scheme `S` has the registered factory `g`, then `g.scheme() = S`, `IsValidTarget`
calls `g.IsValidUri(u)` and `CreateResolver` calls `g.CreateResolver` with `u`. -/
theorem dispatch_to_factory_of_parsed_scheme (ops : List BuilderOp) (b : Builder)
    (Parse : String → StatusOr URI) (target : String)
    (hrun : runOps ops Builder.ctor = .ok b) :
    (∀ uri0 ct0 r f, FindResolverFactory b.Build.1 Parse target (some uri0) ct0 = .ok r →
      r.factory = some f → f.scheme = r.uri.scheme) ∧
    (∀ S g u, LookupResolverFactory b.Build.1 S = some g → Parse target = .value u →
      u.scheme = S →
      g.scheme = S ∧
      IsValidTarget b.Build.1 Parse target = .ok ⟨g.IsValidUri u, [Event.IsValidUri g u]⟩ ∧
      ∀ args pollset_set work_serializer result_handler,
        CreateResolver b.Build.1 Parse target args pollset_set work_serializer
            result_handler
          = .ok ⟨g.CreateResolver ⟨u, args, pollset_set, work_serializer, result_handler⟩,
              [Event.CreateResolver g
                ⟨u, args, pollset_set, work_serializer, result_handler⟩]⟩) := by
  have hkey : KeyedByScheme b.state_.factories :=
    KeyedByScheme_runOps ops Builder.ctor b KeyedByScheme_ctor hrun
  refine ⟨?_, ?_⟩
  · intro uri0 ct0 r f hfind hf
    exact hkey _ _ (FindResolverFactory_found b.Build.1 Parse target uri0 ct0 r f hfind hf).1
  · intro S g u hl hp hS
    subst hS
    refine ⟨hkey _ _ hl, ?_, ?_⟩
    · simp only [IsValidTarget,
        FindResolverFactory_of_raw_match b.Build.1 Parse target u g default "" hp hl]
      rfl
    · intro args pollset_set work_serializer result_handler
      simp only [CreateResolver,
        FindResolverFactory_of_raw_match b.Build.1 Parse target u g
          (default : ResolverArgs).uri "" hp hl]
      rfl

/-- Instance of C9: `unix://authority` is dispatched to the `unix` factory. -/
theorem dispatch_to_factory_of_parsed_scheme_witness :
    runOps [.RegisterResolverFactory Sample.dnsFactory,
        .RegisterResolverFactory Sample.unixFactory] Builder.ctor = .ok Sample.builder ∧
    Sample.Parse "unix://authority" = .value ⟨"unix", "authority", ""⟩ ∧
    IsValidTarget Sample.builder.Build.1 Sample.Parse "unix://authority"
      = .ok ⟨false, [Event.IsValidUri Sample.unixFactory ⟨"unix", "authority", ""⟩]⟩ :=
  ⟨rfl, by decide,
    ((dispatch_to_factory_of_parsed_scheme
      [.RegisterResolverFactory Sample.dnsFactory,
        .RegisterResolverFactory Sample.unixFactory]
      Sample.builder Sample.Parse "unix://authority" rfl).2 "unix" Sample.unixFactory
      ⟨"unix", "authority", ""⟩ rfl (by decide) rfl).2.1⟩

/-- C10: the registry returned by `Build` looks up, for every scheme `s`, what the builder
held under the key equal to `s`; the lookup is null exactly when `HasResolverFactory(s)`
was false, a factory it returns was stored in the builder under `s` itself, and the
default prefix of the registry is that of the builder. -/
theorem Build_freezes_builder_state (b : Builder) (s : String) :
    LookupResolverFactory b.Build.1 s = map_find b.state_.factories s ∧
    (LookupResolverFactory b.Build.1 s = none ↔ b.HasResolverFactory s = false) ∧
    (∀ f, LookupResolverFactory b.Build.1 s = some f → (s, f) ∈ b.state_.factories) ∧
    b.Build.1.state_.default_prefix = b.state_.default_prefix := by
  refine ⟨rfl, ?_, ?_, rfl⟩
  · show map_find b.state_.factories s = none ↔ _
    cases hm : map_find b.state_.factories s <;> simp [Builder.HasResolverFactory, hm]
  · intro f hf
    exact map_find_mem b.state_.factories s f hf

/-! ## Lemmas on the builder lifecycle and on canonical targets -/

/-- The resolution algorithm reads a registry through `LookupResolverFactory` and the
default prefix only. -/
theorem FindResolverFactory_congr (reg1 reg2 : ResolverRegistry)
    (hl : ∀ s, LookupResolverFactory reg1 s = LookupResolverFactory reg2 s)
    (hp : reg1.state_.default_prefix = reg2.state_.default_prefix)
    (Parse : String → StatusOr URI) (target : String) (uri : Option URI) (ct : String) :
    FindResolverFactory reg1 Parse target uri ct
      = FindResolverFactory reg2 Parse target uri ct := by
  cases uri with
  | none => rfl
  | some uri0 => simp only [FindResolverFactory, FindResolverFactory.withPrefix, hl, hp]

/-- A match is either a raw match or, after a raw miss, a match of the prefixed string. -/
theorem FindResolverFactory_found_cases (reg : ResolverRegistry)
    (Parse : String → StatusOr URI) (target : String) (uri0 : URI) (ct0 : String)
    (r : FindResult) (f : ResolverFactory)
    (hfind : FindResolverFactory reg Parse target (some uri0) ct0 = .ok r)
    (hf : r.factory = some f) :
    (Parse target = .value r.uri ∧ LookupResolverFactory reg r.uri.scheme = some f) ∨
    (RawMiss reg Parse target ∧
      Parse (reg.state_.default_prefix ++ target) = .value r.uri ∧
      LookupResolverFactory reg r.uri.scheme = some f) := by
  have hl := (FindResolverFactory_found reg Parse target uri0 ct0 r f hfind hf).1
  by_cases hraw : RawMiss reg Parse target
  · right
    refine ⟨hraw, ?_, hl⟩
    rw [FindResolverFactory_of_raw_miss reg Parse target uri0 ct0 hraw] at hfind
    have hr := Except.ok.inj hfind
    cases hp2 : Parse (reg.state_.default_prefix ++ target) with
    | value u2 =>
      cases hl2 : LookupResolverFactory reg u2.scheme with
      | some g =>
        rw [withPrefix_of_match reg Parse target _ uri0 u2 g hp2 hl2] at hr
        rw [← hr]
      | none =>
        have hpre : PrefixedMiss reg Parse target := fun v hv => by
          rw [hp2] at hv; cases hv; exact hl2
        rw [withPrefix_of_miss reg Parse target _ uri0 hpre] at hr
        rw [← hr, notFound_factory] at hf
        cases hf
    | error s2 =>
      have hpre : PrefixedMiss reg Parse target := fun v hv => by
        rw [hp2] at hv; cases hv
      rw [withPrefix_of_miss reg Parse target _ uri0 hpre] at hr
      rw [← hr, notFound_factory] at hf
      cases hf
  · left
    unfold RawMiss at hraw
    push_neg at hraw
    obtain ⟨u, hu, hne⟩ := hraw
    cases hlu : LookupResolverFactory reg u.scheme with
    | none => exact absurd hlu hne
    | some g =>
      rw [FindResolverFactory_of_raw_match reg Parse target u g uri0 ct0 hu hlu] at hfind
      have hr := Except.ok.inj hfind
      subst hr
      exact ⟨hu, hl⟩

theorem AddDefaultPrefixIfNeeded_of_raw_match (reg : ResolverRegistry)
    (Parse : String → StatusOr URI) (target : String) (u : URI) (f : ResolverFactory)
    (hparse : Parse target = .value u)
    (hreg : LookupResolverFactory reg u.scheme = some f) :
    AddDefaultPrefixIfNeeded reg Parse target = .ok ⟨target, []⟩ := by
  simp only [AddDefaultPrefixIfNeeded,
    FindResolverFactory_of_raw_match reg Parse target u f default "" hparse hreg]
  rfl

theorem AddDefaultPrefixIfNeeded_of_prefixed_match (reg : ResolverRegistry)
    (Parse : String → StatusOr URI) (target : String) (u2 : URI) (f2 : ResolverFactory)
    (hraw : RawMiss reg Parse target)
    (hparse : Parse (reg.state_.default_prefix ++ target) = .value u2)
    (hreg : LookupResolverFactory reg u2.scheme = some f2) :
    AddDefaultPrefixIfNeeded reg Parse target
      = .ok ⟨reg.state_.default_prefix ++ target, []⟩ := by
  simp only [AddDefaultPrefixIfNeeded,
    FindResolverFactory_of_raw_miss reg Parse target default "" hraw,
    withPrefix_of_match reg Parse target _ default u2 f2 hparse hreg]
  split
  · rename_i h
    rw [← append_isEmpty _ _ h]
  · rfl

/-- The canonical form of a resolvable target matches at the raw step, with the factory
and the URI the target itself resolves to. -/
theorem canonical_of_found (reg : ResolverRegistry) (Parse : String → StatusOr URI)
    (target : String) (uri0 : URI) (ct0 : String) (r : FindResult) (f : ResolverFactory)
    (hfind : FindResolverFactory reg Parse target (some uri0) ct0 = .ok r)
    (hf : r.factory = some f) :
    ∃ c, AddDefaultPrefixIfNeeded reg Parse target = .ok ⟨c, []⟩ ∧
      Parse c = .value r.uri ∧ LookupResolverFactory reg r.uri.scheme = some f := by
  rcases FindResolverFactory_found_cases reg Parse target uri0 ct0 r f hfind hf with
    ⟨hp, hl⟩ | ⟨hraw, hp, hl⟩
  · exact ⟨target, AddDefaultPrefixIfNeeded_of_raw_match reg Parse target r.uri f hp hl,
      hp, hl⟩
  · exact ⟨reg.state_.default_prefix ++ target,
      AddDefaultPrefixIfNeeded_of_prefixed_match reg Parse target r.uri f hraw hp hl,
      hp, hl⟩

theorem IsValidTarget_of_raw_match (reg : ResolverRegistry) (Parse : String → StatusOr URI)
    (target : String) (u : URI) (f : ResolverFactory) (hparse : Parse target = .value u)
    (hreg : LookupResolverFactory reg u.scheme = some f) :
    IsValidTarget reg Parse target = .ok ⟨f.IsValidUri u, [Event.IsValidUri f u]⟩ := by
  simp only [IsValidTarget,
    FindResolverFactory_of_raw_match reg Parse target u f default "" hparse hreg]
  rfl

theorem GetDefaultAuthority_of_raw_match (reg : ResolverRegistry)
    (Parse : String → StatusOr URI) (target : String) (u : URI) (f : ResolverFactory)
    (hparse : Parse target = .value u)
    (hreg : LookupResolverFactory reg u.scheme = some f) :
    GetDefaultAuthority reg Parse target
      = .ok ⟨f.GetDefaultAuthority u, [Event.GetDefaultAuthority f u]⟩ := by
  simp only [GetDefaultAuthority,
    FindResolverFactory_of_raw_match reg Parse target u f default "" hparse hreg]
  rfl

theorem IsValidTarget_of_found (reg : ResolverRegistry) (Parse : String → StatusOr URI)
    (target : String) (uri0 : URI) (ct0 : String) (r : FindResult) (f : ResolverFactory)
    (hfind : FindResolverFactory reg Parse target (some uri0) ct0 = .ok r)
    (hf : r.factory = some f) :
    IsValidTarget reg Parse target
      = .ok ⟨f.IsValidUri r.uri, [Event.IsValidUri f r.uri]⟩ := by
  obtain ⟨ct, h⟩ :=
    (FindResolverFactory_found reg Parse target uri0 ct0 r f hfind hf).2 default ""
  simp only [IsValidTarget, h]
  rfl

theorem GetDefaultAuthority_of_found (reg : ResolverRegistry)
    (Parse : String → StatusOr URI) (target : String) (uri0 : URI) (ct0 : String)
    (r : FindResult) (f : ResolverFactory)
    (hfind : FindResolverFactory reg Parse target (some uri0) ct0 = .ok r)
    (hf : r.factory = some f) :
    GetDefaultAuthority reg Parse target
      = .ok ⟨f.GetDefaultAuthority r.uri, [Event.GetDefaultAuthority f r.uri]⟩ := by
  obtain ⟨ct, h⟩ :=
    (FindResolverFactory_found reg Parse target uri0 ct0 r f hfind hf).2 default ""
  simp only [GetDefaultAuthority, h]
  rfl

theorem runOps_register_default_prefix (fs : List ResolverFactory) (b b1 : Builder)
    (h : runOps (fs.map BuilderOp.RegisterResolverFactory) b = .ok b1) :
    b1.state_.default_prefix = b.state_.default_prefix := by
  induction fs generalizing b with
  | nil =>
    cases h
    rfl
  | cons f rest ih =>
    cases hop : b.RegisterResolverFactory f with
    | error e => simp [runOps, BuilderOp.apply, hop] at h
    | ok b2 =>
      simp only [List.map_cons, runOps, BuilderOp.apply, hop] at h
      rw [ih b2 h, (RegisterResolverFactory_ok b b2 f hop).2]

theorem FindResolverFactory_canonical_of_raw_miss (reg : ResolverRegistry)
    (Parse : String → StatusOr URI) (target : String) (uri0 : URI) (ct0 : String)
    (hraw : RawMiss reg Parse target) :
    Except.map FindResult.canonical_target
        (FindResolverFactory reg Parse target (some uri0) ct0)
      = .ok (reg.state_.default_prefix ++ target) := by
  rw [FindResolverFactory_of_raw_miss reg Parse target uri0 ct0 hraw]
  simp only [Except.map, withPrefix_canonical_target]

/-! ## The builder lifecycle -/

/-- C11: after `Reset`, whatever the builder held, no scheme is registered and the default
prefix is the literal `dns:///`; a newly constructed builder is in the same state; and any
factory, also one whose scheme was registered before the `Reset`, is accepted after it. -/
theorem Reset_restores_initial_state (b : Builder) (s : String)
    (factory : ResolverFactory) :
    b.Reset.HasResolverFactory s = false ∧
    b.Reset.state_.default_prefix = "dns:///" ∧
    Builder.ctor.HasResolverFactory s = false ∧
    Builder.ctor.state_.default_prefix = "dns:///" ∧
    b.Reset = Builder.ctor ∧
    ∃ b1, b.Reset.RegisterResolverFactory factory = .ok b1 ∧
      b1.HasResolverFactory factory.scheme = true := by
  refine ⟨rfl, rfl, rfl, rfl, rfl, ?_⟩
  have h := RegisterResolverFactory_of_absent b.Reset factory rfl
  refine ⟨_, h, ?_⟩
  simp [Builder.HasResolverFactory, Builder.Reset, map_find]

/-- C12, as stated, fails for a parser that takes the scheme in front of the first colon:
`ftp://x` misses at the raw step, but the prefixed string `dns:///ftp://x` parses with the
scheme `dns`, and the `dns` factory is returned. -/
theorem unknown_scheme_scenario_counterexample :
    Sample.registry.state_.default_prefix = "dns:///" ∧
    map_keys Sample.registry.state_.factories = ["dns", "unix"] ∧
    Sample.Parse "ftp://x" = .value ⟨"ftp", "x", ""⟩ ∧
    LookupResolverFactory Sample.registry "ftp" = none ∧
    Sample.Parse "dns:///ftp://x" = .value ⟨"dns", "", "/ftp://x"⟩ ∧
    FindResolverFactory Sample.registry Sample.Parse "ftp://x" (some default) ""
      = .ok ⟨some Sample.dnsFactory, ⟨"dns", "", "/ftp://x"⟩, "dns:///ftp://x", []⟩ ∧
    Except.map Outcome.value (IsValidTarget Sample.registry Sample.Parse "ftp://x")
      = .ok true ∧
    Except.map Outcome.value
        (CreateResolver Sample.registry Sample.Parse "ftp://x" none none none none)
      = .ok (some ⟨1⟩) :=
  ⟨rfl, rfl, by decide, rfl, by decide, rfl, rfl, rfl⟩

/-- C12, amended: with the prefix `dns:///` and factories for exactly `dns` and `unix`,
`ftp://x`, parsed with the scheme `ftp`, misses at the raw step and the canonical target is
`dns:///ftp://x`. No factory is returned (and then `IsValidTarget` is false and
`CreateResolver` null) exactly when that string does not parse or parses to a scheme other
than `dns` and `unix`; when it parses with the scheme `dns`, the `dns` factory is returned
with the prefixed URI. -/
theorem unknown_scheme_scenario (reg : ResolverRegistry) (Parse : String → StatusOr URI)
    (u : URI) (fd fu : ResolverFactory)
    (hdefault : reg.state_.default_prefix = "dns:///")
    (hdns : LookupResolverFactory reg "dns" = some fd)
    (hunix : LookupResolverFactory reg "unix" = some fu)
    (hother : ∀ s, s ≠ "dns" → s ≠ "unix" → LookupResolverFactory reg s = none)
    (hparse : Parse "ftp://x" = .value u) (hscheme : u.scheme = "ftp") :
    LookupResolverFactory reg u.scheme = none ∧
    (∀ uri0 ct0, ∃ r, FindResolverFactory reg Parse "ftp://x" (some uri0) ct0 = .ok r ∧
      r.canonical_target = "dns:///ftp://x" ∧
      (r.factory = none ↔
        ∀ u2, Parse "dns:///ftp://x" = .value u2 →
          u2.scheme ≠ "dns" ∧ u2.scheme ≠ "unix") ∧
      (∀ u2, Parse "dns:///ftp://x" = .value u2 → u2.scheme = "dns" →
        r.factory = some fd ∧ r.uri = u2)) ∧
    ((∀ u2, Parse "dns:///ftp://x" = .value u2 →
        u2.scheme ≠ "dns" ∧ u2.scheme ≠ "unix") →
      Except.map Outcome.value (IsValidTarget reg Parse "ftp://x") = .ok false ∧
      ∀ args pollset_set work_serializer result_handler,
        Except.map Outcome.value
          (CreateResolver reg Parse "ftp://x" args pollset_set work_serializer
            result_handler) = .ok none) := by
  have hcat : reg.state_.default_prefix ++ "ftp://x" = "dns:///ftp://x" := by
    rw [hdefault]; decide
  have hftp : LookupResolverFactory reg u.scheme = none := by
    rw [hscheme]; exact hother "ftp" (by decide) (by decide)
  have hraw : RawMiss reg Parse "ftp://x" := fun v hv => by
    rw [hparse] at hv; cases hv; exact hftp
  have hmiss : (∀ u2, Parse "dns:///ftp://x" = .value u2 →
      u2.scheme ≠ "dns" ∧ u2.scheme ≠ "unix") → PrefixedMiss reg Parse "ftp://x" := by
    intro h v hv
    rw [hcat] at hv
    exact hother v.scheme (h v hv).1 (h v hv).2
  refine ⟨hftp, ?_, ?_⟩
  · intro uri0 ct0
    refine ⟨_, FindResolverFactory_of_raw_miss reg Parse "ftp://x" uri0 ct0 hraw, ?_, ?_, ?_⟩
    · rw [withPrefix_canonical_target, hcat]
    · constructor
      · intro hnone u2 hu2
        have hnot : ∀ g, LookupResolverFactory reg u2.scheme = some g → False := by
          intro g hg
          rw [withPrefix_of_match reg Parse "ftp://x" _ uri0 u2 g (hcat ▸ hu2) hg] at hnone
          cases hnone
        constructor
        · intro hd
          exact hnot fd (hd ▸ hdns)
        · intro hx
          exact hnot fu (hx ▸ hunix)
      · intro h
        rw [withPrefix_of_miss reg Parse "ftp://x" _ uri0 (hmiss h), notFound_factory]
    · intro u2 hu2 hd
      rw [withPrefix_of_match reg Parse "ftp://x" _ uri0 u2 fd (hcat ▸ hu2) (hd ▸ hdns)]
      exact ⟨rfl, rfl⟩
  · intro h
    have hpre := hmiss h
    constructor
    · obtain ⟨message, hm⟩ :=
        FindResolverFactory_of_miss reg Parse "ftp://x" default "" hraw hpre
      simp only [IsValidTarget, hm, Except.map]
    · intro args pollset_set work_serializer result_handler
      obtain ⟨message, hm⟩ := FindResolverFactory_of_miss reg Parse "ftp://x"
        (default : ResolverArgs).uri "" hraw hpre
      simp only [CreateResolver, hm, Except.map]

/-- Instance of the amended C12 on the sample registry and parser: the `dns` factory is
returned for `ftp://x`. -/
theorem unknown_scheme_scenario_witness :
    Sample.Parse "ftp://x" = .value ⟨"ftp", "x", ""⟩ ∧
    Sample.Parse "dns:///ftp://x" = .value ⟨"dns", "", "/ftp://x"⟩ ∧
    ∃ r, FindResolverFactory Sample.registry Sample.Parse "ftp://x" (some default) ""
        = .ok r ∧ r.canonical_target = "dns:///ftp://x" ∧
      r.factory = some Sample.dnsFactory ∧ r.uri = ⟨"dns", "", "/ftp://x"⟩ := by
  have h := (unknown_scheme_scenario Sample.registry Sample.Parse ⟨"ftp", "x", ""⟩
    Sample.dnsFactory Sample.unixFactory rfl rfl rfl
    (fun s h1 h2 => by
      show map_find [("dns", Sample.dnsFactory), ("unix", Sample.unixFactory)] s = none
      simp [map_find, Ne.symm h1, Ne.symm h2])
    (by decide) rfl).2.1 default ""
  obtain ⟨r, hr, hc, _, hd⟩ := h
  exact ⟨by decide, by decide, r, hr, hc, hd ⟨"dns", "", "/ftp://x"⟩ (by decide) rfl⟩

/-- C13: `SetDefaultPrefix(p)` stores `p`, whatever string it is, does not fail and leaves
the mapping as it was; a prefix set before it is forgotten, registrations made after it
keep it, and the registry built afterwards carries it: for a target whose raw form does
not match, the canonical target is `p` followed by the target. -/
theorem SetDefaultPrefix_stores_argument (b : Builder) (p q : String)
    (fs : List ResolverFactory) (Parse : String → StatusOr URI) (target : String) :
    (b.SetDefaultPrefix p).state_.default_prefix = p ∧
    (b.SetDefaultPrefix p).state_.factories = b.state_.factories ∧
    BuilderOp.apply b (.SetDefaultPrefix p) = .ok (b.SetDefaultPrefix p) ∧
    (b.SetDefaultPrefix q).SetDefaultPrefix p = b.SetDefaultPrefix p ∧
    (∀ b1, runOps (fs.map BuilderOp.RegisterResolverFactory) (b.SetDefaultPrefix p) = .ok b1 →
      b1.Build.1.state_.default_prefix = p) ∧
    ((∀ u, Parse target = .value u →
        LookupResolverFactory (b.SetDefaultPrefix p).Build.1 u.scheme = none) →
      Except.map Outcome.value
          (AddDefaultPrefixIfNeeded (b.SetDefaultPrefix p).Build.1 Parse target)
        = .ok (p ++ target) ∧
      ∀ uri0 ct0, Except.map FindResult.canonical_target
          (FindResolverFactory (b.SetDefaultPrefix p).Build.1 Parse target (some uri0) ct0)
        = .ok (p ++ target)) := by
  refine ⟨rfl, rfl, rfl, rfl, ?_, ?_⟩
  · intro b1 h
    exact runOps_register_default_prefix fs (b.SetDefaultPrefix p) b1 h
  · intro hraw
    exact ⟨AddDefaultPrefixIfNeeded_of_raw_miss _ Parse target hraw,
      fun uri0 ct0 => FindResolverFactory_canonical_of_raw_miss _ Parse target uri0 ct0 hraw⟩

/-- Instance of C13: with the prefix `unix:` set on the sample builder, the bare path
`/tmp/s.sock` gets the canonical target `unix:/tmp/s.sock`; with the empty prefix it stays
as it is. -/
theorem SetDefaultPrefix_stores_argument_witness :
    (Sample.Parse "/tmp/s.sock").ok = false ∧
    Except.map Outcome.value
        (AddDefaultPrefixIfNeeded (Sample.builder.SetDefaultPrefix "unix:").Build.1
          Sample.Parse "/tmp/s.sock") = .ok "unix:/tmp/s.sock" ∧
    Except.map Outcome.value
        (AddDefaultPrefixIfNeeded (Sample.builder.SetDefaultPrefix "").Build.1
          Sample.Parse "/tmp/s.sock") = .ok "/tmp/s.sock" :=
  have hfail : ∀ reg : ResolverRegistry, ∀ u, Sample.Parse "/tmp/s.sock" = .value u →
      LookupResolverFactory reg u.scheme = none := fun reg u hu => by
    have h : (Sample.Parse "/tmp/s.sock").ok = false := by decide
    rw [hu] at h; exact absurd h (by simp [StatusOr.ok])
  ⟨by decide,
    ((SetDefaultPrefix_stores_argument Sample.builder "unix:" "dns:///" [] Sample.Parse
      "/tmp/s.sock").2.2.2.2.2 (hfail _)).1,
    ((SetDefaultPrefix_stores_argument Sample.builder "" "dns:///" [] Sample.Parse
      "/tmp/s.sock").2.2.2.2.2 (hfail _)).1⟩

/-! ## Diagnostics -/

theorem head_data_append (a b : String) (c : Char) (h : a.data.head? = some c) :
    (a ++ b).data.head? = some c := by
  rw [String.data_append]
  cases hd : a.data with
  | nil => rw [hd] at h; cases h
  | cons x xs => rw [hd] at h; exact h

theorem c_str_head (s : String) (c : Char) (h : s.data.head? = some c)
    (hc : c ≠ Char.ofNat 0) : (c_str s).data.head? = some c := by
  cases hd : s.data with
  | nil => rw [hd] at h; cases h
  | cons x xs =>
    rw [hd] at h
    have hx : x = c := Option.some.inj h
    subst hx
    have hp : (x != Char.ofNat 0) = true := by simpa using hc
    simp [c_str, hd, List.takeWhile_cons, hp]

theorem c_str_of_nulFree (s : String) (h : NulFree s) : c_str s = s := by
  have hall : ∀ x ∈ s.data, (x != Char.ofNat 0) = true := by
    intro x hx
    have hne : x ≠ Char.ofNat 0 := fun he => h (he ▸ hx)
    simpa using hne
  unfold c_str
  rw [List.takeWhile_eq_self_iff.2 hall]

theorem NulFree_append (a b : String) (ha : NulFree a) (hb : NulFree b) :
    NulFree (a ++ b) := by
  unfold NulFree at *
  rw [String.data_append, List.mem_append]
  exact fun h => h.elim ha hb

theorem parseFailureText_nulFree (target ct : String) (t t2 : StatusOr URI)
    (h1 : NulFree target) (h2 : NulFree ct) (h3 : NulFree t.status.ToString)
    (h4 : NulFree t2.status.ToString) : NulFree (parseFailureText target ct t t2) := by
  have hA : NulFree "Error parsing URI(s). '" := by unfold NulFree; decide
  have hB : NulFree "':" := by unfold NulFree; decide
  have hC : NulFree "; '" := by unfold NulFree; decide
  unfold parseFailureText
  exact NulFree_append _ _ (NulFree_append _ _ (NulFree_append _ _ (NulFree_append _ _
    (NulFree_append _ _ (NulFree_append _ _ (NulFree_append _ _ hA h1) hB) h3) hC) h2) hB)
    h4

theorem parseFailureLine_ne_unknownSchemeLine (target ct target1 ct1 : String)
    (t t2 : StatusOr URI) :
    parseFailureLine target ct t t2 ≠ unknownSchemeLine target1 ct1 := by
  intro h
  have hm := Event.gpr_log_error.inj h
  have h0 : (parseFailureText target ct t t2).data.head? = some 'E' :=
    head_data_append _ t2.status.ToString 'E' (head_data_append _ "':" 'E'
      (head_data_append _ ct 'E' (head_data_append _ "; '" 'E'
        (head_data_append _ t.status.ToString 'E' (head_data_append _ "':" 'E'
          (head_data_append "Error parsing URI(s). '" target 'E' rfl))))))
  have h1 := c_str_head _ 'E' h0 (by decide)
  have h2 : (unknownSchemeText (c_str target1) (c_str ct1)).data.head? = some 'D' :=
    head_data_append _ "'." 'D' (head_data_append _ (c_str ct1) 'D'
      (head_data_append _ "' or '" 'D'
        (head_data_append "Don't know how to resolve '" (c_str target1) 'D' rfl)))
  rw [hm, h2] at h1
  exact absurd (Option.some.inj h1) (by decide)

theorem notFound_trace_of_parse_failure (target : String) (t t2 : StatusOr URI)
    (uri0 : URI) (ct : String) (h : t.ok = false ∨ t2.ok = false) :
    (FindResolverFactory.notFound target t t2 uri0 ct).trace
      = [parseFailureLine target ct t t2] := by
  have hc : (!t.ok || !t2.ok) = true := by
    rcases h with h | h <;> simp [h]
  simp only [FindResolverFactory.notFound, hc, if_true, parseFailureLine, parseFailureText]

theorem notFound_trace_of_unknown_scheme (target : String) (t t2 : StatusOr URI)
    (uri0 : URI) (ct : String) (h : t.ok = true ∧ t2.ok = true) :
    (FindResolverFactory.notFound target t t2 uri0 ct).trace
      = [unknownSchemeLine target ct] := by
  have hc : (!t.ok || !t2.ok) = false := by simp [h.1, h.2]
  simp only [FindResolverFactory.notFound, hc, unknownSchemeLine, unknownSchemeText]
  rfl

/-- With no NUL byte in the two candidate strings and in the two statuses, both lines are
written whole. -/
theorem lines_whole_of_nulFree (target ct : String) (t t2 : StatusOr URI)
    (h1 : NulFree target) (h2 : NulFree ct) (h3 : NulFree t.status.ToString)
    (h4 : NulFree t2.status.ToString) :
    parseFailureLine target ct t t2
      = Event.gpr_log_error (parseFailureText target ct t t2) ∧
    unknownSchemeLine target ct = Event.gpr_log_error (unknownSchemeText target ct) := by
  constructor
  · unfold parseFailureLine
    rw [c_str_of_nulFree _ (parseFailureText_nulFree target ct t t2 h1 h2 h3 h4)]
  · unfold unknownSchemeLine
    rw [c_str_of_nulFree _ h1, c_str_of_nulFree _ h2]

/-- The diagnostics of the not-found tail: one line, the parse-failure line exactly when a
parse failed, the unknown-scheme line exactly when both succeeded. -/
theorem notFound_trace_classified (target : String) (t t2 : StatusOr URI) (uri0 : URI)
    (ct : String) :
    (∃ message, (FindResolverFactory.notFound target t t2 uri0 ct).trace
      = [Event.gpr_log_error message]) ∧
    ((FindResolverFactory.notFound target t t2 uri0 ct).trace
        = [parseFailureLine target ct t t2] ↔ (t.ok = false ∨ t2.ok = false)) ∧
    ((FindResolverFactory.notFound target t t2 uri0 ct).trace
        = [unknownSchemeLine target ct] ↔ (t.ok = true ∧ t2.ok = true)) := by
  by_cases h : t.ok = false ∨ t2.ok = false
  · have htr := notFound_trace_of_parse_failure target t t2 uri0 ct h
    refine ⟨⟨_, htr⟩, ⟨fun _ => h, fun _ => htr⟩, ⟨fun hu => ?_, fun hb => ?_⟩⟩
    · rw [htr] at hu
      exact absurd (List.head_eq_of_cons_eq hu)
        (parseFailureLine_ne_unknownSchemeLine target ct target ct t t2)
    · rcases h with h | h
      · rw [hb.1] at h; cases h
      · rw [hb.2] at h; cases h
  · have hb : t.ok = true ∧ t2.ok = true := by
      constructor
      · cases ht : t.ok with
        | true => rfl
        | false => exact absurd (Or.inl ht) h
      · cases ht : t2.ok with
        | true => rfl
        | false => exact absurd (Or.inr ht) h
    have htr := notFound_trace_of_unknown_scheme target t t2 uri0 ct hb
    refine ⟨⟨_, htr⟩, ⟨fun hp => ?_, fun hp => absurd hp h⟩, ⟨fun _ => hb, fun _ => htr⟩⟩
    rw [htr] at hp
    exact absurd (List.head_eq_of_cons_eq hp).symm
      (parseFailureLine_ne_unknownSchemeLine target ct target ct t t2)

/-- The result of `FindResolverFactory` is a match without a log line, or the not-found
tail after a miss of both steps. -/
theorem FindResolverFactory_match_or_notFound (reg : ResolverRegistry)
    (Parse : String → StatusOr URI) (target : String) (uri0 : URI) (ct0 : String) :
    (∃ f u ct, FindResolverFactory reg Parse target (some uri0) ct0
      = .ok { factory := some f, uri := u, canonical_target := ct, trace := [] }) ∨
    (RawMiss reg Parse target ∧ PrefixedMiss reg Parse target ∧
      FindResolverFactory reg Parse target (some uri0) ct0
        = .ok (FindResolverFactory.notFound target (Parse target)
            (Parse (reg.state_.default_prefix ++ target)) uri0
            (reg.state_.default_prefix ++ target))) := by
  by_cases hraw : RawMiss reg Parse target
  · by_cases hpre : PrefixedMiss reg Parse target
    · right
      refine ⟨hraw, hpre, ?_⟩
      rw [FindResolverFactory_of_raw_miss reg Parse target uri0 ct0 hraw,
        withPrefix_of_miss reg Parse target _ uri0 hpre]
    · left
      unfold PrefixedMiss at hpre
      push_neg at hpre
      obtain ⟨u2, hu2, hne⟩ := hpre
      cases hl : LookupResolverFactory reg u2.scheme with
      | none => exact absurd hl hne
      | some g =>
        refine ⟨g, u2, reg.state_.default_prefix ++ target, ?_⟩
        rw [FindResolverFactory_of_raw_miss reg Parse target uri0 ct0 hraw,
          withPrefix_of_match reg Parse target _ uri0 u2 g hu2 hl]
  · left
    unfold RawMiss at hraw
    push_neg at hraw
    obtain ⟨u, hu, hne⟩ := hraw
    cases hl : LookupResolverFactory reg u.scheme with
    | none => exact absurd hl hne
    | some g =>
      exact ⟨g, u, ct0, FindResolverFactory_of_raw_match reg Parse target u g uri0 ct0 hu hl⟩

/-- C15, as stated, fails: for the two control characters `FindResolverFactory` returns no
factory after two failed parses, and the line written is the parse-failure text cut at the
NUL byte of the target; it carries neither the canonical target nor a status. -/
theorem FindResolverFactory_diagnostics_counterexample :
    (Sample.Parse "\x00\x01").ok = false ∧
    (Sample.Parse "dns:///\x00\x01").ok = false ∧
    FindResolverFactory Sample.registry Sample.Parse "\x00\x01" (some default) ""
      = .ok ⟨none, default, "dns:///\x00\x01",
          [Event.gpr_log_error "Error parsing URI(s). '"]⟩ ∧
    parseFailureText "\x00\x01" "dns:///\x00\x01" (Sample.Parse "\x00\x01")
        (Sample.Parse "dns:///\x00\x01")
      = "Error parsing URI(s). '\x00\x01':INVALID_ARGUMENT: Scheme not found.; "
        ++ "'dns:///\x00\x01':INVALID_ARGUMENT: URI contains invalid characters." ∧
    "Error parsing URI(s). '"
      ≠ parseFailureText "\x00\x01" "dns:///\x00\x01" (Sample.Parse "\x00\x01")
        (Sample.Parse "dns:///\x00\x01") :=
  ⟨by decide, by decide, rfl, by decide, by decide⟩

/-- C15, amended: `FindResolverFactory` logs nothing when it returns a factory. When it
returns none, both steps missed and it logs exactly one line: the parse-failure line (the
text with the raw target, the canonical target and the status of either parse, up to its
first NUL byte) exactly when one of the two parses failed, and the unknown-scheme line (the
raw and the canonical target, each up to its first NUL byte) exactly when both parses
succeeded. With no NUL byte in the target, the prefix and the two statuses, both lines are
the whole texts. -/
theorem FindResolverFactory_diagnostics (reg : ResolverRegistry)
    (Parse : String → StatusOr URI) (target : String) (uri0 : URI) (ct0 : String) :
    (∃ r, FindResolverFactory reg Parse target (some uri0) ct0 = .ok r ∧
      (∀ f, r.factory = some f → r.trace = []) ∧
      (r.factory = none →
        (∃ message, r.trace = [Event.gpr_log_error message]) ∧
        (r.trace = [parseFailureLine target (reg.state_.default_prefix ++ target)
              (Parse target) (Parse (reg.state_.default_prefix ++ target))] ↔
          ((Parse target).ok = false ∨
            (Parse (reg.state_.default_prefix ++ target)).ok = false)) ∧
        (r.trace = [unknownSchemeLine target (reg.state_.default_prefix ++ target)] ↔
          ((Parse target).ok = true ∧
            (Parse (reg.state_.default_prefix ++ target)).ok = true)) ∧
        (∀ u, Parse target = .value u → LookupResolverFactory reg u.scheme = none) ∧
        (∀ u, Parse (reg.state_.default_prefix ++ target) = .value u →
          LookupResolverFactory reg u.scheme = none))) ∧
    (NulFree target → NulFree reg.state_.default_prefix →
      NulFree (Parse target).status.ToString →
      NulFree (Parse (reg.state_.default_prefix ++ target)).status.ToString →
      parseFailureLine target (reg.state_.default_prefix ++ target) (Parse target)
          (Parse (reg.state_.default_prefix ++ target))
        = Event.gpr_log_error
            (parseFailureText target (reg.state_.default_prefix ++ target) (Parse target)
              (Parse (reg.state_.default_prefix ++ target))) ∧
      unknownSchemeLine target (reg.state_.default_prefix ++ target)
        = Event.gpr_log_error
            (unknownSchemeText target (reg.state_.default_prefix ++ target))) := by
  refine ⟨?_, fun h1 h2 h3 h4 =>
    lines_whole_of_nulFree target _ _ _ h1 (NulFree_append _ _ h2 h1) h3 h4⟩
  rcases FindResolverFactory_match_or_notFound reg Parse target uri0 ct0 with
    ⟨f, u, ct, h⟩ | ⟨hraw, hpre, h⟩
  · exact ⟨_, h, fun _ _ => rfl, fun hnone => by cases hnone⟩
  · refine ⟨_, h, fun f hf => ?_, fun _ => ?_⟩
    · rw [notFound_factory] at hf
      cases hf
    · have hc := notFound_trace_classified target (Parse target)
        (Parse (reg.state_.default_prefix ++ target)) uri0
        (reg.state_.default_prefix ++ target)
      exact ⟨hc.1, hc.2.1, hc.2.2, hraw, hpre⟩

/-- Instance of the amended C15: in a registry that knows `unix` only, `ftp://x` and
`dns:///ftp://x` both parse, and the unknown-scheme line is logged, whole. -/
theorem FindResolverFactory_diagnostics_witness :
    ∃ r, FindResolverFactory ⟨⟨[("unix", Sample.unixFactory)], "dns:///"⟩⟩ Sample.Parse
        "ftp://x" (some default) "" = .ok r ∧ r.factory = none ∧
      r.trace = [Event.gpr_log_error
        "Don't know how to resolve 'ftp://x' or 'dns:///ftp://x'."] := by
  obtain ⟨⟨r, hr, _, hnone⟩, hwhole⟩ := FindResolverFactory_diagnostics
    ⟨⟨[("unix", Sample.unixFactory)], "dns:///"⟩⟩ Sample.Parse "ftp://x" default ""
  have hfac : r.factory = none := by
    have h0 : FindResolverFactory ⟨⟨[("unix", Sample.unixFactory)], "dns:///"⟩⟩
        Sample.Parse "ftp://x" (some default) ""
        = .ok (FindResolverFactory.notFound "ftp://x" (Sample.Parse "ftp://x")
            (Sample.Parse "dns:///ftp://x") default "dns:///ftp://x") := rfl
    rw [h0] at hr
    rw [← Except.ok.inj hr, notFound_factory]
  have hline := (hwhole (by unfold NulFree; decide) (by unfold NulFree; decide)
    (by unfold NulFree; decide) (by unfold NulFree; decide)).2
  refine ⟨r, hr, hfac, ?_⟩
  rw [(hnone hfac).2.2.1.2 ⟨by decide, by decide⟩, hline]
  rfl

/-! ## Builder state after `Build`, and the order of registrations -/

/-- C16: the builder that `Build` leaves behind holds no factory, so `HasResolverFactory`
is false for every scheme and any factory, also one for a scheme registered before, is
accepted; the registry returned by `Build` keeps the lookups and the prefix the builder had
before, whatever is then run on the builder left behind. -/
theorem Build_consumes_builder_state (b : Builder) (s : String)
    (factory : ResolverFactory) :
    b.Build.2.HasResolverFactory s = false ∧
    (∃ b1, b.Build.2.RegisterResolverFactory factory = .ok b1 ∧
      b1.HasResolverFactory factory.scheme = true) ∧
    (∀ ops b1, runOps ops b.Build.2 = .ok b1 →
      LookupResolverFactory b.Build.1 s = map_find b.state_.factories s ∧
      b.Build.1.state_.default_prefix = b.state_.default_prefix) := by
  refine ⟨rfl, ?_, fun _ _ _ => ⟨rfl, rfl⟩⟩
  have h := RegisterResolverFactory_of_absent b.Build.2 factory rfl
  refine ⟨_, h, ?_⟩
  simp [Builder.HasResolverFactory, Builder.Build, map_find]

/-- Instance of C16: the sample builder holds `dns`; after `Build` it does not, a second
`dns` factory is accepted, and the registry still answers with the first one. -/
theorem Build_consumes_builder_state_witness :
    Sample.builder.HasResolverFactory "dns" = true ∧
    Sample.builder.Build.2.HasResolverFactory "dns" = false ∧
    (∃ b1, Sample.builder.Build.2.RegisterResolverFactory Sample.dnsFactory2 = .ok b1 ∧
      b1.HasResolverFactory "dns" = true) ∧
    LookupResolverFactory Sample.builder.Build.1 "dns" = some Sample.dnsFactory :=
  ⟨by decide, by decide,
    (Build_consumes_builder_state Sample.builder "dns" Sample.dnsFactory2).2.1, rfl⟩

theorem map_find_append_swap (m : FactoryMap) (f g : ResolverFactory)
    (hne : f.scheme ≠ g.scheme) (s : String) :
    map_find ((m ++ [(f.scheme, f)]) ++ [(g.scheme, g)]) s
      = map_find ((m ++ [(g.scheme, g)]) ++ [(f.scheme, f)]) s := by
  rw [map_find_append, map_find_append, map_find_append, map_find_append]
  cases map_find m s with
  | some x => rfl
  | none =>
    by_cases h1 : f.scheme = s
    · have h2 : ¬ g.scheme = s := fun h => hne (h1.trans h.symm)
      simp [h1, h2]
    · by_cases h2 : g.scheme = s
      · simp [h1, h2]
      · simp [h1, h2]

theorem runOps_register_two (b : Builder) (f g : ResolverFactory)
    (hne : f.scheme ≠ g.scheme)
    (hf : b.HasResolverFactory f.scheme = false)
    (hg : b.HasResolverFactory g.scheme = false) :
    runOps [.RegisterResolverFactory f, .RegisterResolverFactory g] b
      = .ok { state_ :=
          { factories := (b.state_.factories ++ [(f.scheme, f)]) ++ [(g.scheme, g)],
            default_prefix := b.state_.default_prefix } } := by
  have hf1 : map_find b.state_.factories f.scheme = none := by
    cases h : map_find b.state_.factories f.scheme with
    | none => rfl
    | some x => simp [Builder.HasResolverFactory, h] at hf
  have hg1 : map_find b.state_.factories g.scheme = none := by
    cases h : map_find b.state_.factories g.scheme with
    | none => rfl
    | some x => simp [Builder.HasResolverFactory, h] at hg
  have hg2 : map_find (b.state_.factories ++ [(f.scheme, f)]) g.scheme = none := by
    rw [map_find_append, hg1]
    simp [hne]
  simp only [runOps, BuilderOp.apply, RegisterResolverFactory_of_absent b f hf1]
  rw [RegisterResolverFactory_of_absent _ g hg2]

/-- C17: for two factories with different schemes, neither of them registered in the
builder, registering them in either order succeeds, and the two builders, and the
registries built from them, agree on `HasResolverFactory`, on `LookupResolverFactory` and
on the default prefix, hence on `FindResolverFactory` for every parser, target and pair of
pointees. -/
theorem registration_order_irrelevant (b : Builder) (f g : ResolverFactory)
    (hne : f.scheme ≠ g.scheme)
    (hf : b.HasResolverFactory f.scheme = false)
    (hg : b.HasResolverFactory g.scheme = false) :
    ∃ b1 b2,
      runOps [.RegisterResolverFactory f, .RegisterResolverFactory g] b = .ok b1 ∧
      runOps [.RegisterResolverFactory g, .RegisterResolverFactory f] b = .ok b2 ∧
      (∀ s, b1.HasResolverFactory s = b2.HasResolverFactory s) ∧
      (∀ s, LookupResolverFactory b1.Build.1 s = LookupResolverFactory b2.Build.1 s) ∧
      b1.Build.1.state_.default_prefix = b2.Build.1.state_.default_prefix ∧
      (∀ Parse target uri ct,
        FindResolverFactory b1.Build.1 Parse target uri ct
          = FindResolverFactory b2.Build.1 Parse target uri ct) := by
  have hswap := map_find_append_swap b.state_.factories f g hne
  refine ⟨_, _, runOps_register_two b f g hne hf hg,
    runOps_register_two b g f (Ne.symm hne) hg hf, ?_, ?_, rfl, ?_⟩
  · intro s
    simp only [Builder.HasResolverFactory, hswap s]
  · intro s
    exact hswap s
  · intro Parse target uri ct
    apply FindResolverFactory_congr
    · intro s
      exact hswap s
    · rfl

/-- Instance of C17: the `dns` and the `unix` factory on a new builder. -/
theorem registration_order_irrelevant_witness :
    ∃ b1 b2,
      runOps [.RegisterResolverFactory Sample.dnsFactory,
        .RegisterResolverFactory Sample.unixFactory] Builder.ctor = .ok b1 ∧
      runOps [.RegisterResolverFactory Sample.unixFactory,
        .RegisterResolverFactory Sample.dnsFactory] Builder.ctor = .ok b2 ∧
      ∀ s, LookupResolverFactory b1.Build.1 s = LookupResolverFactory b2.Build.1 s := by
  obtain ⟨b1, b2, h1, h2, _, hl, _⟩ := registration_order_irrelevant Builder.ctor
    Sample.dnsFactory Sample.unixFactory (by decide) (by decide) (by decide)
  exact ⟨b1, b2, h1, h2, hl⟩

/-! ## Canonical targets -/

/-- C18: when `FindResolverFactory` returns the factory `f` with the URI `r.uri` for a
target, the string `c` that `AddDefaultPrefixIfNeeded` returns for it parses to `r.uri`,
whose scheme has `f` registered, so `FindResolverFactory` on `c` returns `f` and `r.uri` at
the raw step, the canonical-target output untouched; `IsValidTarget` and
`GetDefaultAuthority` answer for `c` as they do for the target. -/
theorem canonicalisation_preserves_resolution (reg : ResolverRegistry)
    (Parse : String → StatusOr URI) (target : String) (uri0 : URI) (ct0 : String)
    (r : FindResult) (f : ResolverFactory)
    (hfind : FindResolverFactory reg Parse target (some uri0) ct0 = .ok r)
    (hf : r.factory = some f) :
    ∃ c, Except.map Outcome.value (AddDefaultPrefixIfNeeded reg Parse target) = .ok c ∧
      Parse c = .value r.uri ∧ LookupResolverFactory reg r.uri.scheme = some f ∧
      (∀ uri1 ct1, FindResolverFactory reg Parse c (some uri1) ct1
        = .ok { factory := some f, uri := r.uri, canonical_target := ct1, trace := [] }) ∧
      IsValidTarget reg Parse c = IsValidTarget reg Parse target ∧
      GetDefaultAuthority reg Parse c = GetDefaultAuthority reg Parse target := by
  obtain ⟨c, hc, hp, hl⟩ := canonical_of_found reg Parse target uri0 ct0 r f hfind hf
  refine ⟨c, by rw [hc]; rfl, hp, hl, ?_, ?_, ?_⟩
  · intro uri1 ct1
    exact FindResolverFactory_of_raw_match reg Parse c r.uri f uri1 ct1 hp hl
  · rw [IsValidTarget_of_raw_match reg Parse c r.uri f hp hl,
      IsValidTarget_of_found reg Parse target uri0 ct0 r f hfind hf]
  · rw [GetDefaultAuthority_of_raw_match reg Parse c r.uri f hp hl,
      GetDefaultAuthority_of_found reg Parse target uri0 ct0 r f hfind hf]

/-- Instance of C18: the bare host `foo` resolves through the prefix to the `dns` factory,
and its canonical form `dns:///foo` resolves to the same factory and URI at the raw
step. -/
theorem canonicalisation_preserves_resolution_witness :
    FindResolverFactory Sample.registry Sample.Parse "foo" (some default) ""
      = .ok ⟨some Sample.dnsFactory, ⟨"dns", "", "/foo"⟩, "dns:///foo", []⟩ ∧
    ∃ c, Except.map Outcome.value (AddDefaultPrefixIfNeeded Sample.registry Sample.Parse
        "foo") = .ok c ∧ c = "dns:///foo" ∧
      FindResolverFactory Sample.registry Sample.Parse c (some default) ""
        = .ok ⟨some Sample.dnsFactory, ⟨"dns", "", "/foo"⟩, "", []⟩ := by
  obtain ⟨c, hc, _, _, hfind, _⟩ := canonicalisation_preserves_resolution Sample.registry
    Sample.Parse "foo" default ""
    ⟨some Sample.dnsFactory, ⟨"dns", "", "/foo"⟩, "dns:///foo", []⟩ Sample.dnsFactory
    rfl rfl
  have hval : Except.map Outcome.value
      (AddDefaultPrefixIfNeeded Sample.registry Sample.Parse "foo") = .ok "dns:///foo" := rfl
  exact ⟨rfl, c, hc, Except.ok.inj (hc.symm.trans hval), hfind default ""⟩

/-- C19: when `FindResolverFactory` returns a factory for a target, at the raw or at the
prefixed step, `AddDefaultPrefixIfNeeded` maps the string it returns for the target to
itself. -/
theorem AddDefaultPrefixIfNeeded_idempotent_on_resolvable (reg : ResolverRegistry)
    (Parse : String → StatusOr URI) (target : String) (uri0 : URI) (ct0 : String)
    (r : FindResult) (f : ResolverFactory)
    (hfind : FindResolverFactory reg Parse target (some uri0) ct0 = .ok r)
    (hf : r.factory = some f) :
    (AddDefaultPrefixIfNeeded reg Parse target >>= fun o =>
        AddDefaultPrefixIfNeeded reg Parse o.value)
      = AddDefaultPrefixIfNeeded reg Parse target ∧
    ∃ c, AddDefaultPrefixIfNeeded reg Parse target = .ok ⟨c, []⟩ ∧
      AddDefaultPrefixIfNeeded reg Parse c = .ok ⟨c, []⟩ := by
  obtain ⟨c, hc, hp, hl⟩ := canonical_of_found reg Parse target uri0 ct0 r f hfind hf
  have hcc := AddDefaultPrefixIfNeeded_of_raw_match reg Parse c r.uri f hp hl
  refine ⟨?_, c, hc, hcc⟩
  rw [hc]
  exact hcc

/-- Instance of C19: `foo` becomes `dns:///foo`, which stays `dns:///foo`. -/
theorem AddDefaultPrefixIfNeeded_idempotent_on_resolvable_witness :
    AddDefaultPrefixIfNeeded Sample.registry Sample.Parse "foo" = .ok ⟨"dns:///foo", []⟩ ∧
    (AddDefaultPrefixIfNeeded Sample.registry Sample.Parse "foo" >>= fun o =>
        AddDefaultPrefixIfNeeded Sample.registry Sample.Parse o.value)
      = .ok ⟨"dns:///foo", []⟩ :=
  ⟨rfl, ((AddDefaultPrefixIfNeeded_idempotent_on_resolvable Sample.registry Sample.Parse
    "foo" default "" ⟨some Sample.dnsFactory, ⟨"dns", "", "/foo"⟩, "dns:///foo", []⟩
    Sample.dnsFactory rfl rfl).1.trans rfl)⟩

end grpc_core
